import Mathlib

/-!
Verification development for the vaccine-chain chaincode
(`src/vaccinechain.go`, the current version of the contract in that file).

The Go chaincode is shallowly embedded as follows.

* The ledger is a keyed store of decoded JSON documents.  Keys are either
  Fabric composite keys built from an id and a document type
  (`CreateCompositeKey(IdDoctypeIndex, [id, docType])`) or flat string keys
  (asset ids, receipt transaction ids); composite keys are injective on the
  id/docType pair and disjoint from flat keys, which we model with a sum
  type `LKey`.
* Stored documents are modelled by the closed variant type `LVal` covering
  the five record structs of the source.  `json.Unmarshal` of a stored
  document into another struct type is modelled by total decode functions
  that copy exactly the JSON fields the two structs share.
* Go `int16` arithmetic is modelled on `Int` with explicit reduction
  `i16wrap` (two's-complement wrap-around modulo 2^16) at every `int16`
  operation of the source.
* Each chaincode invocation runs inside one ledger transaction, so a
  state-mutating operation is a function `... → St → Except Err St` (reads
  return their result instead of a state); returning `.error` models the
  transaction aborting with none of its writes becoming visible.
* `PutState` can fail (the store is external); a state carries the set of
  keys whose writes fail, so that the error-swallowing branches of the
  source (`if err != nil { return nil }`) are expressible.

`strconv.Itoa` of the Go standard library is embedded by `itoa` /
`itoaInt` (decimal representation).
-/

/-! ### Decimal representation (embedding of `strconv.Itoa`) -/

/-- Decimal digit list of a natural number, most significant digit first;
the mathematical recursion used in proofs. -/
def digitsOf (n : Nat) : List Char :=
  if _h : n < 10 then [Nat.digitChar n]
  else digitsOf (n / 10) ++ [Nat.digitChar (n % 10)]
decreasing_by exact Nat.div_lt_self (by omega) (by omega)

/-- Fuel-based digit production (structurally recursive, so that concrete
runs reduce inside the kernel); `fuel > n` always suffices. -/
def itoaCore : Nat → Nat → List Char → List Char
  | 0, _, acc => acc
  | fuel + 1, n, acc =>
      if n < 10 then Nat.digitChar n :: acc
      else itoaCore fuel (n / 10) (Nat.digitChar (n % 10) :: acc)

/-- Decimal digit list of a natural number, most significant digit first.
Embeds the digit production of `strconv.Itoa` for non-negative values. -/
def itoaAux (n : Nat) : List Char := itoaCore (n + 1) n []

theorem itoaCore_spec : ∀ (fuel n : Nat) (acc : List Char), n < fuel →
    itoaCore fuel n acc = digitsOf n ++ acc := by
  intro fuel
  induction fuel with
  | zero => intro n acc h; omega
  | succ f ih =>
    intro n acc h
    by_cases h10 : n < 10
    · rw [itoaCore, if_pos h10, digitsOf]
      simp [h10]
    · rw [itoaCore, if_neg h10, ih (n / 10) _ (by omega)]
      conv_rhs => rw [digitsOf]
      simp [h10]

theorem itoaAux_eq_digitsOf (n : Nat) : itoaAux n = digitsOf n := by
  rw [itoaAux, itoaCore_spec (n + 1) n [] (by omega), List.append_nil]

/-- Embedding of `strconv.Itoa` on naturals. -/
def itoa (n : Nat) : String := ⟨itoaAux n⟩

/-- Embedding of `strconv.Itoa` on Go `int` values. -/
def itoaInt (i : Int) : String :=
  if i < 0 then "-" ++ itoa i.natAbs else itoa i.toNat

theorem digitsOf_small {n : Nat} (h : n < 10) : digitsOf n = [Nat.digitChar n] := by
  rw [digitsOf]; simp [h]

theorem digitsOf_large {n : Nat} (h : ¬ n < 10) :
    digitsOf n = digitsOf (n / 10) ++ [Nat.digitChar (n % 10)] := by
  conv_lhs => rw [digitsOf]
  simp [h]

theorem digitChar_ne_underscore {m : Nat} (h : m < 10) : Nat.digitChar m ≠ '_' := by
  interval_cases m <;> decide

theorem digitChar_inj_lt {a b : Nat} (ha : a < 10) (hb : b < 10)
    (h : Nat.digitChar a = Nat.digitChar b) : a = b := by
  revert h; revert hb; interval_cases a <;> (intro hb; interval_cases b <;> decide)

theorem digitsOf_ne_underscore (n : Nat) : ∀ c ∈ digitsOf n, c ≠ '_' := by
  induction n using digitsOf.induct with
  | case1 n h =>
    rw [digitsOf_small h]; simp only [List.mem_singleton]
    rintro c rfl; exact digitChar_ne_underscore h
  | case2 n h ih =>
    rw [digitsOf_large h]; simp only [List.mem_append, List.mem_singleton]
    rintro c (hc | rfl)
    · exact ih c hc
    · exact digitChar_ne_underscore (Nat.mod_lt _ (by omega))

theorem digitsOf_ne_nil (n : Nat) : digitsOf n ≠ [] := by
  by_cases h : n < 10
  · rw [digitsOf_small h]; simp
  · rw [digitsOf_large h]; simp

theorem append_singleton_inj {α : Type} {xs ys : List α} {a b : α}
    (h : xs ++ [a] = ys ++ [b]) : xs = ys ∧ a = b := by
  have h' := congrArg List.reverse h
  simp only [List.reverse_append, List.reverse_singleton, List.singleton_append] at h'
  obtain ⟨rfl, h2⟩ := List.cons.inj h'
  exact ⟨List.reverse_injective h2, rfl⟩

theorem digitsOf_inj : ∀ m n : Nat, digitsOf m = digitsOf n → m = n := by
  intro m
  induction m using Nat.strong_induction_on with
  | _ m ih =>
    intro n h
    by_cases hm : m < 10 <;> by_cases hn : n < 10
    · rw [digitsOf_small hm, digitsOf_small hn] at h
      exact digitChar_inj_lt hm hn (List.singleton_inj.mp h)
    · exfalso
      rw [digitsOf_small hm, digitsOf_large hn] at h
      have hlen := congrArg List.length h
      simp only [List.length_singleton, List.length_append] at hlen
      have := digitsOf_ne_nil (n / 10)
      cases hne : digitsOf (n / 10) with
      | nil => exact this hne
      | cons c t => rw [hne] at hlen; simp at hlen
    · exfalso
      rw [digitsOf_large hm, digitsOf_small hn] at h
      have hlen := congrArg List.length h
      simp only [List.length_singleton, List.length_append] at hlen
      have := digitsOf_ne_nil (m / 10)
      cases hne : digitsOf (m / 10) with
      | nil => exact this hne
      | cons c t => rw [hne] at hlen; simp at hlen
    · rw [digitsOf_large hm, digitsOf_large hn] at h
      obtain ⟨h1, h2⟩ := append_singleton_inj h
      have hmod : m % 10 = n % 10 :=
        digitChar_inj_lt (Nat.mod_lt _ (by omega)) (Nat.mod_lt _ (by omega)) h2
      have hdiv : m / 10 = n / 10 :=
        ih (m / 10) (Nat.div_lt_self (by omega) (by omega)) (n / 10) h1
      omega

theorem itoa_inj {m n : Nat} (h : itoa m = itoa n) : m = n := by
  have hd : itoaAux m = itoaAux n := congrArg String.data h
  rw [itoaAux_eq_digitsOf, itoaAux_eq_digitsOf] at hd
  exact digitsOf_inj m n hd

/-- Splitting a character list at a separator that occurs in neither prefix:
the decomposition is unique. -/
theorem split_at_sep : ∀ (xs us ys vs : List Char),
    (∀ c ∈ xs, c ≠ '_') → (∀ c ∈ us, c ≠ '_') →
    xs ++ '_' :: ys = us ++ '_' :: vs → xs = us ∧ ys = vs := by
  intro xs
  induction xs with
  | nil =>
    intro us ys vs _ hus h
    cases us with
    | nil => simpa using h
    | cons u ut =>
      exfalso
      simp only [List.nil_append, List.cons_append, List.cons.injEq] at h
      exact hus u (by simp) h.1.symm
  | cons x xt ihx =>
    intro us ys vs hxs hus h
    cases us with
    | nil =>
      exfalso
      simp only [List.nil_append, List.cons_append, List.cons.injEq] at h
      exact hxs x (by simp) h.1
    | cons u ut =>
      simp only [List.cons_append, List.cons.injEq] at h
      obtain ⟨rfl, h2⟩ := h
      obtain ⟨he, hy⟩ := ihx ut ys vs (fun c hc => hxs c (by simp [hc]))
        (fun c hc => hus c (by simp [hc])) h2
      exact ⟨by rw [he], hy⟩

/-! ### Go `int16` arithmetic -/

/-- Reduce an integer into the `int16` range by two's-complement
wrap-around modulo 2^16, as Go `int16` arithmetic does on overflow. -/
def i16wrap (x : Int) : Int := (x + 32768) % 65536 - 32768

theorem i16wrap_lb (x : Int) : -32768 ≤ i16wrap x := by
  have := Int.emod_nonneg (x + 32768) (b := 65536) (by norm_num)
  unfold i16wrap; omega

theorem i16wrap_ub (x : Int) : i16wrap x ≤ 32767 := by
  have := Int.emod_lt_of_pos (x + 32768) (b := 65536) (by norm_num)
  unfold i16wrap; omega

theorem i16wrap_congr {a b : Int} (h : a % 65536 = b % 65536) :
    i16wrap a = i16wrap b := by
  unfold i16wrap
  have : (a + 32768) % 65536 = (b + 32768) % 65536 := by
    omega
  omega

theorem i16wrap_emod (a : Int) : i16wrap a % 65536 = a % 65536 := by
  unfold i16wrap
  omega

theorem i16wrap_mul_left (a b : Int) : i16wrap (i16wrap a * b) = i16wrap (a * b) :=
  i16wrap_congr (Int.ModEq.mul_right b (i16wrap_emod a))

theorem i16wrap_mul_right (a b : Int) : i16wrap (a * i16wrap b) = i16wrap (a * b) :=
  i16wrap_congr (Int.ModEq.mul_left a (i16wrap_emod b))

theorem i16wrap_add_left (a b : Int) : i16wrap (i16wrap a + b) = i16wrap (a + b) :=
  i16wrap_congr (Int.ModEq.add_right b (i16wrap_emod a))

theorem i16wrap_small {x : Int} (h1 : -32768 ≤ x) (h2 : x ≤ 32767) : i16wrap x = x := by
  unfold i16wrap
  omega

/-! ### Data model (structs of `src/vaccinechain.go`) -/

/-- `Entity` struct (parties: admins, manufacturers, distributors, chemists). -/
structure Entity where
  id : String := ""
  name : String := ""
  licenseNo : String := ""
  address : String := ""
  ownerName : String := ""
  ownerIdentity : String := ""
  ownerAddress : String := ""
  contactNo : String := ""
  emailId : String := ""
  suspended : Bool := false
  batchCount : Int := 0
  docType : String := ""
deriving DecidableEq, Repr

/-- `Product` struct.  The `int16` fields are carried as `Int`; JSON decoding
into Go `int16` only accepts values in the `int16` range. -/
structure Product where
  id : String := ""
  name : String := ""
  desc : String := ""
  type : String := ""
  price : Int := 0
  cartonCapacity : Int := 0
  packetCapacity : Int := 0
  docType : String := ""
  suspended : Bool := false
  owner : String := ""
deriving DecidableEq, Repr

/-- `Batch` struct. -/
structure Batch where
  id : String := ""
  owner : String := ""
  productId : String := ""
  manufacturingDate : Int := 0
  expiryDate : Int := 0
  cartonQnty : Int := 0
deriving DecidableEq, Repr

/-- `Asset` struct (one trackable unit). -/
structure Asset where
  id : String := ""
  batchId : String := ""
  cartonId : String := ""
  owner : String := ""
  status : String := ""
  productId : String := ""
  manufacturerId : String := ""
  manufacturingDate : Int := 0
  expiryDate : Int := 0
  docType : String := ""
deriving DecidableEq, Repr

/-- `Receipt` struct. -/
structure Receipt where
  id : String := ""
  bundleId : String := ""
  docType : String := ""
  supplierId : String := ""
  customerId : String := ""
  productId : String := ""
  transactionDate : Int := 0
  billAmount : Int := 0
deriving DecidableEq, Repr

/-- `History` struct returned by `TrackPacket`.  The Go `time.Time`
timestamp is modelled as an integer. -/
structure History where
  id : String := ""
  owner : String := ""
  status : String := ""
  txId : String := ""
  ts : Int := 0
  isDelete : Bool := false
deriving DecidableEq, Repr

/-- Stored ledger documents: the closed set of record variants this
chaincode ever writes. -/
inductive LVal where
  | entity (e : Entity)
  | product (p : Product)
  | batch (b : Batch)
  | asset (a : Asset)
  | receipt (r : Receipt)
deriving DecidableEq, Repr

/-- Ledger keys: Fabric composite keys `(id, docType)` or flat string keys.
Fabric composite keys carry a reserved prefix and separators, so they are
injective on the pair and never collide with the flat keys the contract
uses (asset ids, transaction ids); the sum type reflects exactly that. -/
inductive LKey where
  | comp (id docType : String)
  | flat (k : String)
deriving DecidableEq, Repr

/-! ### Constants of `vaccinechainhelper`

Modelled from the spec: the helper package `vaccinechainhelper` is not under
`src/`.  `ASSET` and `ITEM` values are pinned by the literal query strings
in `GetAssetByEntity` and `GetProductsByManufacturer`; the role tags by the
`oneof=VACCINE_CHAIN_ADMIN MANUFACTURER DISTRIBUTER CHEMIST` validator tags.
The four status strings are named in the spec (§4.3); only their identity
and distinctness matter. -/

def MANUFACTURER : String := "MANUFACTURER"

def DISTRIBUTER : String := "DISTRIBUTER"

def CHEMIST : String := "CHEMIST"

def VACCINE_CHAIN_ADMIN : String := "VACCINE_CHAIN_ADMIN"

def ASSET : String := "ASSET"

def ITEM : String := "ITEM"

def RECEIPT : String := "RECEIPT"

namespace Statuses

def ReadyForDistribution : String := "ReadyForDistribution"

def ReceivedAtDistributor : String := "ReceivedAtDistributor"

def ChemistInventoryReceived : String := "ChemistInventoryReceived"

def SoldToCustomer : String := "SoldToCustomer"

end Statuses

/-! ### JSON cross-decoding

`json.Unmarshal` of a stored document into a different struct type copies
exactly the JSON fields whose names the two structs share and leaves the
remaining fields at their zero values.  The shared names are taken from the
`json:"..."` tags of the source structs. -/

/-- Decode a stored document as an `Asset` (`json.Unmarshal(bytes, &Asset)`).
Shared fields: entity has `id`,`docType`; product has `id`,`owner`,`docType`;
batch has `id`,`owner`,`productId`,`manufacturingDate`,`expiryDate` (no
`docType` tag); receipt has `id`,`productId`,`docType`. -/
def decodeAsset : LVal → Asset
  | .asset a => a
  | .entity e => { id := e.id, docType := e.docType }
  | .product p => { id := p.id, owner := p.owner, docType := p.docType }
  | .batch b => { id := b.id, owner := b.owner, productId := b.productId,
                  manufacturingDate := b.manufacturingDate, expiryDate := b.expiryDate }
  | .receipt r => { id := r.id, productId := r.productId, docType := r.docType }

/-- Decode a stored document as an `Entity`.  Shared fields: product has
`id`,`name`,`docType`,`suspended`; asset has `id`,`docType`; batch has `id`;
receipt has `id`,`docType`. -/
def decodeEntity : LVal → Entity
  | .entity e => e
  | .product p => { id := p.id, name := p.name, docType := p.docType, suspended := p.suspended }
  | .asset a => { id := a.id, docType := a.docType }
  | .batch b => { id := b.id }
  | .receipt r => { id := r.id, docType := r.docType }

/-- Decode a stored document as a `Product`.  Shared fields: entity has
`id`,`name`,`docType`,`suspended`; asset has `id`,`owner`,`docType`; batch
has `id`,`owner`; receipt has `id`,`docType`. -/
def decodeProduct : LVal → Product
  | .product p => p
  | .entity e => { id := e.id, name := e.name, docType := e.docType, suspended := e.suspended }
  | .asset a => { id := a.id, owner := a.owner, docType := a.docType }
  | .batch b => { id := b.id, owner := b.owner }
  | .receipt r => { id := r.id, docType := r.docType }

/-- Decode a stored document as a `Receipt`.  Shared fields: entity has
`id`,`docType`; product has `id`,`docType`; asset has `id`,`productId`,
`docType`; batch has `id`,`productId`. -/
def decodeReceipt : LVal → Receipt
  | .receipt r => r
  | .entity e => { id := e.id, docType := e.docType }
  | .product p => { id := p.id, docType := p.docType }
  | .asset a => { id := a.id, productId := a.productId, docType := a.docType }
  | .batch b => { id := b.id, productId := b.productId }

/-- The `suspended` JSON field of a stored document (used by the helper
`SuspendStatus`); documents without that field read as `false`. -/
def suspendedOf : LVal → Bool
  | .entity e => e.suspended
  | .product p => p.suspended
  | .batch _ => false
  | .asset _ => false
  | .receipt _ => false

/-- The `owner` JSON field of a stored document, as seen by a rich query
selector; `none` when the document has no such field. -/
def fieldOwner : LVal → Option String
  | .entity _ => none
  | .product p => some p.owner
  | .batch b => some b.owner
  | .asset a => some a.owner
  | .receipt _ => none

/-- The `id` JSON field of a stored document as serialized; the batch `id`
tag carries `omitempty`, so an empty batch id is absent. -/
def fieldId : LVal → Option String
  | .entity e => some e.id
  | .product p => some p.id
  | .batch b => if b.id = "" then none else some b.id
  | .asset a => some a.id
  | .receipt r => some r.id

/-- The `cartonId` JSON field of a stored document; only assets have it. -/
def fieldCartonId : LVal → Option String
  | .asset a => some a.cartonId
  | _ => none

/-! ### Ledger state -/

/-- One revision of a key, as delivered by `GetHistoryForKey`.  For a
tombstone (`isDelete = true`) Fabric delivers no value bytes and the code
never reads `value`; the field is a placeholder there. -/
structure Rev where
  isDelete : Bool := false
  value : LVal
  txId : String := ""
  ts : Int := 0
deriving DecidableEq, Repr

/-- The ledger: per-key revision lists (oldest first; the current value of
a key is its last revision), the set of keys whose `PutState` fails, and
the chaincode events emitted so far. -/
structure St where
  ledger : List (LKey × List Rev) := []
  failing : List LKey := []
  events : List (String × List (String × String)) := []
deriving DecidableEq, Repr

/-- Transaction context: `GetTxID` and the transaction timestamp. -/
structure Tx where
  txId : String := ""
  ts : Int := 0
deriving DecidableEq, Repr

/-- Caller identity: the enrollment id (`GetUserIdentityName`) and the
`userRole` certificate attribute. -/
structure Caller where
  identity : String := ""
  userRole : String := ""
deriving DecidableEq, Repr

abbrev Err : Type := String

def getRevs (l : List (LKey × List Rev)) (k : LKey) : List Rev :=
  match l with
  | [] => []
  | (k', rs) :: t => if k' = k then rs else getRevs t k

def putRev (l : List (LKey × List Rev)) (k : LKey) (r : Rev) : List (LKey × List Rev) :=
  match l with
  | [] => [(k, [r])]
  | (k', rs) :: t => if k' = k then (k', rs ++ [r]) :: t else (k', rs) :: putRev t k r

/-- `GetState`: the current value of a key (none if never written, or if the
last revision is a tombstone). -/
def getState (s : St) (k : LKey) : Option LVal :=
  match (getRevs s.ledger k).getLast? with
  | none => none
  | some r => if r.isDelete then none else some r.value

/-- `PutState`: appends a revision, or fails if the store rejects the write. -/
def putState (tx : Tx) (s : St) (k : LKey) (v : LVal) : Except Err St :=
  if k ∈ s.failing then .error "Failed to insert details to CouchDB"
  else .ok { s with ledger := putRev s.ledger k ⟨false, v, tx.txId, tx.ts⟩ }

/-- `SetEvent`: record a chaincode event. -/
def setEvent (s : St) (name : String) (payload : List (String × String)) : St :=
  { s with events := s.events ++ [(name, payload)] }

/-- The documents currently visible to a rich query: for each key whose last
revision is not a tombstone, that value. -/
def currentDocs (s : St) : List (LKey × LVal) :=
  s.ledger.filterMap fun kv =>
    match kv.2.getLast? with
    | none => none
    | some r => if r.isDelete then none else some (kv.1, r.value)

/-- Well-formed state: ledger keys are distinct (one revision list per key). -/
def wfSt (s : St) : Prop := (s.ledger.map Prod.fst).Nodup

instance (s : St) : Decidable (wfSt s) := by unfold wfSt; infer_instance

/-! ### Helper functions -/

/-- Modelled from the spec: `vaccinechainhelper.IsActive` is in the helper
package, which is not under `src/`.  Per §4.1/§4.3 a lookup of `(id,
docType)` yields nothing when the record is absent, fails when the record
is suspended, and returns the record bytes when it is active. -/
def IsActive (s : St) (id docType : String) : Except Err (Option LVal) :=
  match getState s (.comp id docType) with
  | none => .ok none
  | some v =>
      if suspendedOf v then .error ("Record for " ++ id ++ " is not active")
      else .ok (some v)

/-- `insertData`: marshal and `PutState` under the composite key `(id,
docType)`, or under the flat key `id` when `docType` is empty. -/
def insertData (tx : Tx) (s : St) (v : LVal) (id docType : String) : Except Err St :=
  let key := if docType ≠ "" then LKey.comp id docType else LKey.flat id
  putState tx s key v

/-- `getProfileDetails`: resolve the caller identity and `userRole`
attribute, look the profile up via `IsActive`, decode it as an `Entity`. -/
def getProfileDetails (c : Caller) (s : St) : Except Err (Entity × String) :=
  match IsActive s c.identity c.userRole with
  | .error e => .error e
  | .ok none => .error ("Record for " ++ c.identity ++ " user does not exist")
  | .ok (some v) => .ok (decodeEntity v, c.userRole)

/-- Validator tags on `Batch`: `manufacturingDate` is `required` (a zero
value fails), `expiryDate` is `required` and must exceed
`manufacturingDate`. -/
def validateBatch (b : Batch) : Bool :=
  b.manufacturingDate != 0 && b.expiryDate != 0 &&
    decide (b.expiryDate > b.manufacturingDate)

/-- Index list of the loop `for i := int16(1); i <= n; i++`, faithful for
`n ≤ 32766`; at `n = 32767` the Go loop counter wraps and the loop never
terminates, so no successful call exists there (theorems carry that bound). -/
def idxList (n : Int) : List Nat := (List.range n.toNat).map (· + 1)

/-- The double loop of `AddBatch` generating one asset per carton/packet
index pair. -/
def genAssets (manId : String) (b : Batch) (p : Product) : List Asset :=
  (idxList b.cartonQnty).flatMap fun i =>
    (idxList p.cartonCapacity).map fun j =>
      let cartonId := b.id ++ "_" ++ "C" ++ itoa i
      let packetId := "P" ++ itoa j
      { id := manId ++ "_" ++ cartonId ++ "_" ++ packetId
        batchId := b.id
        cartonId := cartonId
        owner := manId
        status := Statuses.ReadyForDistribution
        productId := p.id
        manufacturerId := manId
        manufacturingDate := b.manufacturingDate
        expiryDate := b.expiryDate
        docType := ASSET }

/-- Loop body of `getQueryResultForAssetUpdateQueryString`: for each key the
query matched, re-read the current value, decode it as an asset, overwrite
`owner` and `status`, write it back; thread the last product id and
manufacturer id and the `int16` counter `totalBundle`. -/
def assetUpdateLoop (tx : Tx) (newOwner newStatus : String) :
    List (LKey × LVal) → String × String × Int × St → Except Err (String × String × Int × St)
  | [], acc => .ok acc
  | (k, _) :: rest, (_, _, t, st) =>
    match getState st k with
    | none => .error "unexpected end of JSON input"
    | some v =>
      let asset := { decodeAsset v with owner := newOwner, status := newStatus }
      match putState tx st k (.asset asset) with
      | .error e => .error ("Shipment failed for asset " ++ asset.id ++ ": " ++ e)
      | .ok st' =>
        assetUpdateLoop tx newOwner newStatus rest
          (asset.productId, asset.manufacturerId, i16wrap (t + 1), st')

/-- The selector of `ShipToDistributor`: documents whose serialized `owner`
and `cartonId` fields equal the given values. -/
def predOwnerCarton (o cid : String) (v : LVal) : Bool :=
  fieldOwner v == some o && fieldCartonId v == some cid

/-- The selector of `ShipToChemist` and `ShipToCustomer`: documents whose
serialized `owner` and `id` fields equal the given values. -/
def predOwnerId (o pid : String) (v : LVal) : Bool :=
  fieldOwner v == some o && fieldId v == some pid

/-- `getQueryResultForAssetUpdateQueryString`: evaluate the selector (here a
predicate over the serialized JSON fields), fail when nothing matches,
otherwise rewrite every matched record. -/
def getQueryResultForAssetUpdateQueryString (tx : Tx) (pred : LVal → Bool)
    (newOwner newStatus : String) (s : St) : Except Err (String × String × Int × St) :=
  let matched := (currentDocs s).filter fun kv => pred kv.2
  if matched.isEmpty then .error "No Records found for Transaction"
  else assetUpdateLoop tx newOwner newStatus matched ("", "", 0, s)

/-- `createReceipt`: build the receipt keyed by the transaction id and write
it; a failed write is swallowed (source line 1748 returns nil), so this
function never returns an error. -/
def createReceipt (tx : Tx) (bundleId supplierId customerId productId : String)
    (transactionDate billAmount : Int) (s : St) : Except Err St :=
  let receipt : Receipt :=
    { id := tx.txId, bundleId := bundleId, docType := RECEIPT,
      supplierId := supplierId, customerId := customerId, productId := productId,
      transactionDate := transactionDate, billAmount := billAmount }
  match insertData tx s (.receipt receipt) tx.txId "" with
  | .error _ => .ok s
  | .ok s' => .ok s'

/-- Payload of the shipment events (field names of the anonymous event
structs; integer fields serialized decimally). -/
def shipEvent (supplierId customerId : String) (transactionDate perUnitSellingPrice : Int)
    (manufacturerId productId : String) (totalParcelUnits totalBill : Int) :
    List (String × String) :=
  [("SupplierId", supplierId), ("CustomerId", customerId),
   ("TransactionDate", itoaInt transactionDate),
   ("PerUnitSellingPrice", itoaInt perUnitSellingPrice),
   ("ManufacturerId", manufacturerId), ("ProductId", productId),
   ("TotalParcelUnits", itoaInt totalParcelUnits), ("TotalBill", itoaInt totalBill)]

/-! ### Chaincode operations -/

/-- `AddBatch` (source lines 1286-1386). -/
def AddBatch (tx : Tx) (c : Caller) (batchInput : Batch) (s : St) : Except Err St :=
  if !validateBatch batchInput then .error "validation error(s)" else
  match getProfileDetails c s with
  | .error e => .error e
  | .ok (manufacturerDetails, role) =>
  if role ≠ MANUFACTURER then .error "Only the Manufacturer is allowed to add a batch" else
  match IsActive s (batchInput.productId ++ manufacturerDetails.id) ITEM with
  | .error e => .error e
  | .ok none =>
      .error ("Record does not exist with ID: " ++ batchInput.productId ++ manufacturerDetails.id)
  | .ok (some objectBytes) =>
  let productDetails := decodeProduct objectBytes
  let batch := { batchInput with id := "B" ++ itoaInt manufacturerDetails.batchCount }
  match insertData tx s (.batch batch) manufacturerDetails.id batch.id with
  | .error _ => .ok s
  | .ok s1 =>
  match (genAssets manufacturerDetails.id batch productDetails).foldlM
      (fun st a => putState tx st (.flat a.id) (.asset a)) s1 with
  | .error e => .error e
  | .ok s2 =>
  let m2 := { manufacturerDetails with batchCount := manufacturerDetails.batchCount + 1 }
  match insertData tx s2 (.entity m2) manufacturerDetails.id manufacturerDetails.docType with
  | .error _ => .ok s2
  | .ok s3 => .ok s3

structure ShipToDistributorInput where
  customerId : String := ""
  cartonId : String := ""
  transactionDate : Int := 0
  perUnitSellingPrice : Int := 0
deriving DecidableEq, Repr

/-- `ShipToDistributor` (source lines 1401-1508).  The caller role returned
by `getProfileDetails` is discarded, exactly as in the source. -/
def ShipToDistributor (tx : Tx) (c : Caller) (inp : ShipToDistributorInput) (s : St) :
    Except Err St :=
  match getProfileDetails c s with
  | .error e => .error e
  | .ok (manufacturerDetails, _) =>
  match IsActive s inp.customerId DISTRIBUTER with
  | .error e => .error e
  | .ok none => .error ("Record does not exist with ID: " ++ inp.customerId)
  | .ok (some _) =>
  match getQueryResultForAssetUpdateQueryString tx
      (predOwnerCarton manufacturerDetails.id inp.cartonId)
      inp.customerId Statuses.ReceivedAtDistributor s with
  | .error e => .error e
  | .ok (productId, manufacturerId, totalBundle, s1) =>
  match IsActive s1 (productId ++ manufacturerId) ITEM with
  | .error e => .error e
  | .ok none => .error ("Record does not exist with ID: " ++ productId)
  | .ok (some productBytes) =>
  let productDetails := decodeProduct productBytes
  let billAmount :=
    i16wrap (i16wrap (inp.perUnitSellingPrice * productDetails.packetCapacity) * totalBundle)
  match createReceipt tx inp.cartonId manufacturerDetails.id inp.customerId productId
      inp.transactionDate billAmount s1 with
  | .error e => .error e
  | .ok s2 =>
  .ok (setEvent s2 "Distributor Shipment Alert"
    (shipEvent manufacturerDetails.id inp.customerId inp.transactionDate
      inp.perUnitSellingPrice manufacturerId productId totalBundle billAmount))

structure ShipToChemistInput where
  customerId : String := ""
  packetId : String := ""
  transactionDate : Int := 0
  perUnitSellingPrice : Int := 0
deriving DecidableEq, Repr

/-- `ShipToChemist` (source lines 1523-1622).  Unlike `ShipToDistributor`
there is no nil check on the product bytes: decoding nil fails but that
error is never read, so a missing product leaves `productDetails` at its
zero value. -/
def ShipToChemist (tx : Tx) (c : Caller) (inp : ShipToChemistInput) (s : St) :
    Except Err St :=
  match getProfileDetails c s with
  | .error e => .error e
  | .ok (distributerDetails, _) =>
  match IsActive s inp.customerId CHEMIST with
  | .error e => .error e
  | .ok none => .error ("Record does not exist with ID: " ++ inp.customerId)
  | .ok (some _) =>
  match getQueryResultForAssetUpdateQueryString tx
      (predOwnerId distributerDetails.id inp.packetId)
      inp.customerId Statuses.ChemistInventoryReceived s with
  | .error e => .error e
  | .ok (productId, manufacturerId, _, s1) =>
  match IsActive s1 (productId ++ manufacturerId) ITEM with
  | .error e => .error e
  | .ok productBytes =>
  let productDetails := match productBytes with
    | some pv => decodeProduct pv
    | none => {}
  let billAmount := i16wrap (inp.perUnitSellingPrice * productDetails.packetCapacity)
  match createReceipt tx inp.packetId distributerDetails.id inp.customerId productId
      inp.transactionDate billAmount s1 with
  | .error e => .error e
  | .ok s2 =>
  .ok (setEvent s2 "Chemist Shipment Alert"
    (shipEvent distributerDetails.id inp.customerId inp.transactionDate
      inp.perUnitSellingPrice manufacturerId productId 1 billAmount))

structure ShipToCustomerInput where
  customerId : String := ""
  packetId : String := ""
  transactionDate : Int := 0
deriving DecidableEq, Repr

/-- `ShipToCustomer` (source lines 1637-1726).  There is no validation of
the named customer at all, and no externally supplied price: the bill uses
the catalog price. -/
def ShipToCustomer (tx : Tx) (c : Caller) (inp : ShipToCustomerInput) (s : St) :
    Except Err St :=
  match getProfileDetails c s with
  | .error e => .error e
  | .ok (chemistDetails, _) =>
  match getQueryResultForAssetUpdateQueryString tx
      (predOwnerId chemistDetails.id inp.packetId)
      inp.customerId Statuses.SoldToCustomer s with
  | .error e => .error e
  | .ok (productId, manufacturerId, _, s1) =>
  match IsActive s1 (productId ++ manufacturerId) ITEM with
  | .error e => .error e
  | .ok productBytes =>
  let productDetails := match productBytes with
    | some pv => decodeProduct pv
    | none => {}
  let billAmount := i16wrap (productDetails.price * productDetails.packetCapacity)
  match createReceipt tx inp.packetId chemistDetails.id inp.customerId productId
      inp.transactionDate billAmount s1 with
  | .error e => .error e
  | .ok s2 =>
  .ok (setEvent s2 "Customer Selling Alert"
    (shipEvent chemistDetails.id inp.customerId inp.transactionDate
      productDetails.price manufacturerId productId 1 billAmount))

/-- Loop of `TrackPacket` over the revision iterator.  `record` is freshly
zero-valued each iteration; for a tombstone the unmarshal is skipped, so
the record stays zero.  `checkStatus` is false only on the first iteration,
so only the first revision can trigger the not-an-asset error. -/
def trackPacketLoop (key : String) : List Rev → Bool → Except Err (List History)
  | [], _ => .ok []
  | r :: rest, checkStatus =>
    let record := if r.isDelete then ({} : Asset) else decodeAsset r.value
    if record.docType != ASSET && !checkStatus then
      .error ("this tracking ID does not belong to asset: " ++ key)
    else
      match trackPacketLoop key rest true with
      | .error e => .error e
      | .ok hs =>
          .ok ({ id := record.id, owner := record.owner, status := record.status,
                 txId := r.txId, ts := r.ts, isDelete := r.isDelete } :: hs)

/-- `TrackPacket` over a revision history (source lines 1842-1888). -/
def trackPacketRevs (key : String) (revs : List Rev) : Except Err (List History) :=
  trackPacketLoop key revs false

/-- `TrackPacket` as invoked on the ledger: replays the revision history of
the flat key; a pure read, no state is produced. -/
def TrackPacket (s : St) (key : String) : Except Err (List History) :=
  trackPacketRevs key (getRevs s.ledger (.flat key))

/-- `ViewReceipt` (source lines 1901-1930). -/
def ViewReceipt (c : Caller) (receiptId : String) (s : St) : Except Err LVal :=
  match getProfileDetails c s with
  | .error e => .error e
  | .ok (entityDetails, _) =>
  match getState s (.flat receiptId) with
  | none => .error ("Receipt does not exist for ID: " ++ receiptId)
  | some receiptBytes =>
  let receipt := decodeReceipt receiptBytes
  if receipt.supplierId != entityDetails.id && receipt.customerId != entityDetails.id then
    .error "You are not authorized to view the receipt"
  else .ok receiptBytes

/-! ### Store lemmas -/

theorem getRevs_putRev_same (l : List (LKey × List Rev)) (k : LKey) (r : Rev) :
    getRevs (putRev l k r) k = getRevs l k ++ [r] := by
  induction l with
  | nil => simp [putRev, getRevs]
  | cons kv t ih =>
    obtain ⟨k', rs⟩ := kv
    by_cases h : k' = k
    · subst h; simp [putRev, getRevs]
    · simp [putRev, getRevs, h, ih]

theorem getRevs_putRev_ne (l : List (LKey × List Rev)) {k k' : LKey} (r : Rev)
    (h : k' ≠ k) : getRevs (putRev l k r) k' = getRevs l k' := by
  induction l with
  | nil => simp [putRev, getRevs, Ne.symm h]
  | cons kv t ih =>
    obtain ⟨k'', rs⟩ := kv
    by_cases h2 : k'' = k
    · subst h2; simp [putRev, getRevs, Ne.symm h]
    · simp only [putRev, if_neg h2, getRevs]
      by_cases h3 : k'' = k' <;> simp [h3, ih]

/-- The state after a successful `PutState`. -/
def statePut (tx : Tx) (s : St) (k : LKey) (v : LVal) : St :=
  { s with ledger := putRev s.ledger k ⟨false, v, tx.txId, tx.ts⟩ }

theorem putState_ok {s : St} {k : LKey} (tx : Tx) (v : LVal) (h : k ∉ s.failing) :
    putState tx s k v = .ok (statePut tx s k v) := by
  simp [putState, h, statePut]

theorem getState_statePut_same (tx : Tx) (s : St) (k : LKey) (v : LVal) :
    getState (statePut tx s k v) k = some v := by
  simp [getState, statePut, getRevs_putRev_same]

theorem getState_statePut_ne (tx : Tx) (s : St) {k k' : LKey} (v : LVal) (h : k' ≠ k) :
    getState (statePut tx s k v) k' = getState s k' := by
  simp [getState, statePut, getRevs_putRev_ne _ _ h]

theorem statePut_failing (tx : Tx) (s : St) (k : LKey) (v : LVal) :
    (statePut tx s k v).failing = s.failing := rfl

theorem statePut_events (tx : Tx) (s : St) (k : LKey) (v : LVal) :
    (statePut tx s k v).events = s.events := rfl

theorem putRev_keys_mem (l : List (LKey × List Rev)) (k : LKey) (r : Rev)
    (h : k ∈ l.map Prod.fst) : (putRev l k r).map Prod.fst = l.map Prod.fst := by
  induction l with
  | nil => simp at h
  | cons kv t ih =>
    obtain ⟨k', rs⟩ := kv
    by_cases h2 : k' = k
    · subst h2; simp [putRev]
    · simp only [List.map_cons, List.mem_cons] at h
      rcases h with h | h
    
      · exact absurd h.symm h2
      · simp [putRev, h2, ih h]

theorem putRev_keys_not_mem (l : List (LKey × List Rev)) (k : LKey) (r : Rev)
    (h : k ∉ l.map Prod.fst) : (putRev l k r).map Prod.fst = l.map Prod.fst ++ [k] := by
  induction l with
  | nil => simp [putRev]
  | cons kv t ih =>
    obtain ⟨k', rs⟩ := kv
    simp only [List.map_cons, List.mem_cons] at h
    push_neg at h
    simp [putRev, Ne.symm h.1, ih h.2]

/-- Folding successful `PutState` writes of a list of assets: the fold
succeeds, preserves the failure set, the events and every untouched key,
and (when the asset ids are distinct) stores each asset at its flat key. -/
theorem foldlM_putState_ok (tx : Tx) :
    ∀ (l : List Asset) (s : St), (∀ a ∈ l, LKey.flat a.id ∉ s.failing) →
    ∃ s2, l.foldlM (fun st a => putState tx st (.flat a.id) (.asset a)) s = .ok s2 ∧
      s2.failing = s.failing ∧ s2.events = s.events ∧
      (∀ k, (∀ a ∈ l, k ≠ .flat a.id) → getState s2 k = getState s k) ∧
      ((l.map (·.id)).Nodup → ∀ a ∈ l, getState s2 (.flat a.id) = some (.asset a)) := by
  intro l
  induction l with
  | nil => exact fun s _ => ⟨s, rfl, rfl, rfl, fun _ _ => rfl, fun _ a ha => by simp at ha⟩
  | cons a t ih =>
    intro s hfail
    have ha : LKey.flat a.id ∉ s.failing := hfail a (by simp)
    have hstep := putState_ok (s := s) tx (LVal.asset a) ha
    set s' := statePut tx s (.flat a.id) (.asset a) with hs'
    have hfail' : ∀ b ∈ t, LKey.flat b.id ∉ s'.failing := by
      intro b hb
      rw [hs', statePut_failing]
      exact hfail b (by simp [hb])
    obtain ⟨s2, hfold, hf2, he2, hframe, hstore⟩ := ih s' hfail'
    refine ⟨s2, ?_, ?_, ?_, ?_, ?_⟩
    · simpa [List.foldlM_cons, hstep] using hfold
    · rw [hf2, hs', statePut_failing]
    · rw [he2, hs', statePut_events]
    · intro k hk
      rw [hframe k fun b hb => hk b (by simp [hb]),
        getState_statePut_ne _ _ _ (hk a (by simp))]
    · intro hnodup b hb
      simp only [List.map_cons, List.nodup_cons, List.mem_map] at hnodup
      rcases List.mem_cons.mp hb with rfl | hbt
      · have : ∀ x ∈ t, LKey.flat b.id ≠ LKey.flat x.id := by
          intro x hx h
          exact hnodup.1 ⟨x, hx, (by injection h with h; exact h.symm)⟩
        rw [hframe _ this, getState_statePut_same]
      · exact hstore hnodup.2 b hbt

/-! ### Lemmas on the generated asset list -/

theorem idxList_nodup (n : Int) : (idxList n).Nodup :=
  (List.nodup_range _).map fun a b h => by omega

theorem idxList_mem {n : Int} {i : Nat} : i ∈ idxList n ↔ 1 ≤ i ∧ i ≤ n.toNat := by
  simp only [idxList, List.mem_map, List.mem_range]
  constructor
  · rintro ⟨a, ha, rfl⟩; omega
  · rintro ⟨h1, h2⟩; exact ⟨i - 1, by omega, by omega⟩

theorem string_data_append (a b : String) : (a ++ b).data = a.data ++ b.data := rfl

/-- The hierarchical asset id, as assembled by the `AddBatch` loop. -/
def assetIdOf (manId bid : String) (i j : Nat) : String :=
  manId ++ "_" ++ (bid ++ "_" ++ "C" ++ itoa i) ++ "_" ++ ("P" ++ itoa j)

theorem assetIdOf_inj {manId bid : String} {i j i' j' : Nat}
    (h : assetIdOf manId bid i j = assetIdOf manId bid i' j') : i = i' ∧ j = j' := by
  have hd := congrArg String.data h
  simp only [assetIdOf, string_data_append] at hd
  have hd2 : itoaAux i ++ '_' :: 'P' :: itoaAux j = itoaAux i' ++ '_' :: 'P' :: itoaAux j' := by
    have : "_".data = ['_'] := rfl
    have hC : "C".data = ['C'] := rfl
    have hP : "P".data = ['P'] := rfl
    simp only [this, hC, hP, List.append_assoc, List.cons_append, List.nil_append,
      List.append_cancel_left_eq, List.cons.injEq, true_and, itoa] at hd
    simpa using hd
  rw [itoaAux_eq_digitsOf, itoaAux_eq_digitsOf, itoaAux_eq_digitsOf, itoaAux_eq_digitsOf] at hd2
  obtain ⟨h1, h2⟩ := split_at_sep _ _ _ _ (digitsOf_ne_underscore i) (digitsOf_ne_underscore i') hd2
  obtain ⟨-, h3⟩ := List.cons.inj h2
  exact ⟨digitsOf_inj _ _ h1, digitsOf_inj _ _ h3⟩

theorem genAssets_mem {manId : String} {b : Batch} {p : Product} {a : Asset} :
    a ∈ genAssets manId b p ↔ ∃ i j, i ∈ idxList b.cartonQnty ∧ j ∈ idxList p.cartonCapacity ∧
      a = { id := assetIdOf manId b.id i j
            batchId := b.id
            cartonId := b.id ++ "_" ++ "C" ++ itoa i
            owner := manId
            status := Statuses.ReadyForDistribution
            productId := p.id
            manufacturerId := manId
            manufacturingDate := b.manufacturingDate
            expiryDate := b.expiryDate
            docType := ASSET } := by
  simp only [genAssets, List.mem_flatMap, List.mem_map, assetIdOf]
  constructor
  · rintro ⟨i, hi, j, hj, rfl⟩; exact ⟨i, j, hi, hj, rfl⟩
  · rintro ⟨i, j, hi, hj, rfl⟩; exact ⟨i, hi, j, hj, rfl⟩

theorem length_flatMap_map {α β γ : Type} (l1 : List α) (l2 : List β) (f : α → β → γ) :
    (l1.flatMap fun i => l2.map (f i)).length = l1.length * l2.length := by
  induction l1 with
  | nil => simp
  | cons x t ih => simp [List.flatMap_cons, ih, Nat.succ_mul, Nat.add_comm]

theorem genAssets_length (manId : String) (b : Batch) (p : Product) :
    (genAssets manId b p).length = b.cartonQnty.toNat * p.cartonCapacity.toNat := by
  unfold genAssets
  rw [length_flatMap_map]
  simp [idxList]

theorem genAssets_ids_nodup (manId : String) (b : Batch) (p : Product) :
    ((genAssets manId b p).map (·.id)).Nodup := by
  unfold genAssets
  rw [List.map_flatMap]
  refine List.nodup_flatMap.2 ⟨?_, ?_⟩
  · intro i _
    rw [List.map_map]
    refine (idxList_nodup _).map_on ?_
    intro j _ j' _ h
    exact (assetIdOf_inj h).2
  · refine (List.Pairwise.imp ?_ (idxList_nodup _))
    intro i i' hne
    rw [Function.onFun, List.disjoint_left]
    intro x hx hx'
    rw [List.map_map, List.mem_map] at hx hx'
    obtain ⟨j, _, rfl⟩ := hx
    obtain ⟨j', _, he⟩ := hx'
    exact hne (assetIdOf_inj he.symm).1

/-! ### A concrete registered ledger

`scnState` is the ledger after onboarding a manufacturer `MF`, a
distributor `DS` and a chemist `CH` (records exactly as `AddEntity` writes
them) and registering product `P1` of `MF` (record exactly as `AddProduct`
writes it: stored under the composite key of `P1 ++ MF` and `ITEM`, with
`owner` set to the manufacturer id).  It is shared by the concrete
instances below. -/

def entMF : Entity := { id := "MF", name := "Pfizer", licenseNo := "L1", docType := MANUFACTURER }

def entDS : Entity := { id := "DS", name := "Medline", licenseNo := "L2", docType := DISTRIBUTER }

def entCH : Entity := { id := "CH", name := "Walgreens", licenseNo := "L3", docType := CHEMIST }

def prodP1 : Product :=
  { id := "P1", name := "Vax", price := 300, cartonCapacity := 2,
    packetCapacity := 200, docType := ITEM, owner := "MF" }

def entDX : Entity :=
  { id := "DX", name := "Closed", licenseNo := "L4", docType := DISTRIBUTER, suspended := true }

def entCX : Entity :=
  { id := "CX", name := "Shut", licenseNo := "L5", docType := CHEMIST, suspended := true }

def scnState : St :=
  { ledger := [
      (.comp "MF" MANUFACTURER, [⟨false, .entity entMF, "t0", 0⟩]),
      (.comp "DS" DISTRIBUTER, [⟨false, .entity entDS, "t0", 0⟩]),
      (.comp "CH" CHEMIST, [⟨false, .entity entCH, "t0", 0⟩]),
      (.comp "DX" DISTRIBUTER, [⟨false, .entity entDX, "t0", 0⟩]),
      (.comp "CX" CHEMIST, [⟨false, .entity entCX, "t0", 0⟩]),
      (.comp "P1MF" ITEM, [⟨false, .product prodP1, "t0", 0⟩])] }

def callerMF : Caller := ⟨"MF", MANUFACTURER⟩

def callerCH : Caller := ⟨"CH", CHEMIST⟩

def scnBatch : Batch :=
  { productId := "P1", manufacturingDate := 100, expiryDate := 200, cartonQnty := 1 }

def scnTx1 : Tx := ⟨"tx1", 10⟩

def scnTx2 : Tx := ⟨"tx2", 20⟩

def scnTx3 : Tx := ⟨"tx3", 30⟩

/-- The revision history of unit `MF_B0_C1_P1` after the manufacturer
creates a batch and then — in one reachable run — invokes `ShipToChemist`
directly (the transfer operations never check the caller role they
discard). -/
def skipTraceHist : Except Err (List History) :=
  match AddBatch scnTx1 callerMF scnBatch scnState with
  | .error e => .error e
  | .ok s1 =>
    match ShipToChemist scnTx2 callerMF ⟨"CH", "MF_B0_C1_P1", 25, 7⟩ s1 with
    | .error e => .error e
    | .ok s2 => TrackPacket s2 "MF_B0_C1_P1"

/-- C4: the claim says the status sequence reconstructed by `TrackPacket`
is, in every reachable ledger state, a prefix of `ReadyForDistribution,
ReceivedAtDistributor, ChemistInventoryReceived, SoldToCustomer`.  The
code violates it: `ShipToChemist` (like the other transfers) discards the
caller role returned by `getProfileDetails`, so the manufacturer itself
can ship a freshly created unit straight to a chemist; the unit's history
then reads `ReadyForDistribution, ChemistInventoryReceived`, which skips
`ReceivedAtDistributor` and is a prefix of no truncation of the canonical
sequence.  The run below starts from a well-formed registered ledger and
uses only successful chaincode invocations. -/
theorem C4_status_sequence_can_skip :
    skipTraceHist = .ok
      [{ id := "MF_B0_C1_P1", owner := "MF", status := Statuses.ReadyForDistribution,
         txId := "tx1", ts := 10, isDelete := false },
       { id := "MF_B0_C1_P1", owner := "CH", status := Statuses.ChemistInventoryReceived,
         txId := "tx2", ts := 20, isDelete := false }] ∧
    ¬ ([Statuses.ReadyForDistribution, Statuses.ChemistInventoryReceived] ∈
        [([] : List String),
         [Statuses.ReadyForDistribution],
         [Statuses.ReadyForDistribution, Statuses.ReceivedAtDistributor],
         [Statuses.ReadyForDistribution, Statuses.ReceivedAtDistributor,
          Statuses.ChemistInventoryReceived],
         [Statuses.ReadyForDistribution, Statuses.ReceivedAtDistributor,
          Statuses.ChemistInventoryReceived, Statuses.SoldToCustomer]]) := by
  exact ⟨rfl, by decide⟩

/-! ### C7: TrackPacket -/

/-- One `History` entry per revision, as the `TrackPacket` loop body builds
it: a tombstone leaves the freshly zero-valued record in place. -/
def trackEntry (r : Rev) : History :=
  let record := if r.isDelete then ({} : Asset) else decodeAsset r.value
  { id := record.id, owner := record.owner, status := record.status,
    txId := r.txId, ts := r.ts, isDelete := r.isDelete }

theorem trackPacketLoop_checked (key : String) :
    ∀ revs : List Rev, trackPacketLoop key revs true = .ok (revs.map trackEntry) := by
  intro revs
  induction revs with
  | nil => rfl
  | cons r rest ih =>
    simp only [trackPacketLoop, Bool.not_true, Bool.and_false, ih, List.map_cons]
    rfl

/-- C7 counterexample: a key whose first revision is a tombstone and whose
first non-tombstoned revision carries the `ASSET` tag.  The claim says
`TrackPacket` only fails when the first non-tombstoned revision lacks the
tag, hence should replay this history; the code checks the very first
revision — tombstoned or not — and a tombstone decodes to a zero-valued
record, so the call fails. -/
theorem C7_counterexample :
    ((([⟨true, .asset {}, "t1", 1⟩,
        ⟨false, .asset { id := "u1", docType := ASSET }, "t2", 2⟩] : List Rev).filter
          (fun r => !r.isDelete)).head?.map (fun r => (decodeAsset r.value).docType)
        = some ASSET) ∧
    trackPacketRevs "u1"
      [⟨true, .asset {}, "t1", 1⟩,
       ⟨false, .asset { id := "u1", docType := ASSET }, "t2", 2⟩] =
      .error "this tracking ID does not belong to asset: u1" := by
  exact ⟨rfl, rfl⟩

/-- C7 (amended): `TrackPacket` fails with the not-an-asset error exactly
when the first revision — tombstoned revisions included, a tombstone
decoding to a zero-valued record — does not carry the `ASSET` document
type; otherwise it returns one `History` entry per revision, oldest first,
as a pure read (the operation produces no new state).  An empty history
yields an empty trail. -/
theorem C7_trackPacket_first_revision_guard (key : String) :
    (trackPacketRevs key [] = .ok []) ∧
    (∀ (r : Rev) (rest : List Rev), r.isDelete = false →
      (decodeAsset r.value).docType = ASSET →
      trackPacketRevs key (r :: rest) = .ok ((r :: rest).map trackEntry)) ∧
    (∀ (r : Rev) (rest : List Rev),
      (r.isDelete = true ∨ (r.isDelete = false ∧ (decodeAsset r.value).docType ≠ ASSET)) →
      trackPacketRevs key (r :: rest) =
        .error ("this tracking ID does not belong to asset: " ++ key)) := by
  refine ⟨rfl, ?_, ?_⟩
  · intro r rest hdel htag
    obtain ⟨isDel, v, rtx, rts⟩ := r
    simp only at hdel htag
    subst hdel
    simp only [trackPacketRevs, trackPacketLoop]
    split
    · rename_i hcond
      simp at hcond
    · split
      · rename_i hcond2
        rw [htag] at hcond2
        simp at hcond2
      · rw [trackPacketLoop_checked]
        simp [trackEntry, htag]
  · intro r rest hbad
    obtain ⟨isDel, v, rtx, rts⟩ := r
    simp only at hbad
    rcases hbad with hdel | ⟨hdel, htag⟩
    · subst hdel; rfl
    · subst hdel
      simp only [trackPacketRevs, trackPacketLoop]
      split
      · rename_i hcond
        simp at hcond
      · split
        · rfl
        · rename_i hcond2
          have hc : ((decodeAsset v).docType != ASSET && !false) = true := by
            simp only [Bool.not_false, Bool.and_true, bne_iff_ne]
            exact htag
          exact absurd hc hcond2

/-- First revision of the witness history below. -/
def c7rev1 : Rev :=
  ⟨false, .asset { id := "u1", owner := "MF", status := Statuses.ReadyForDistribution, docType := ASSET }, "t1", 5⟩

/-- Second revision of the witness history below. -/
def c7rev2 : Rev :=
  ⟨false, .asset { id := "u1", owner := "DS", status := Statuses.ReceivedAtDistributor, docType := ASSET }, "t2", 6⟩

/-- C7 witness: a two-revision asset history replays into two entries. -/
theorem C7_witness :
    trackPacketRevs "u1" [c7rev1, c7rev2] =
    .ok [{ id := "u1", owner := "MF", status := Statuses.ReadyForDistribution,
           txId := "t1", ts := 5, isDelete := false },
         { id := "u1", owner := "DS", status := Statuses.ReceivedAtDistributor,
           txId := "t2", ts := 6, isDelete := false }] := by
  rw [(C7_trackPacket_first_revision_guard "u1").2.1 c7rev1 [c7rev2] rfl rfl]
  rfl

/-! ### Query-and-update lemmas -/

theorem getRevs_not_mem_keys :
    ∀ (l : List (LKey × List Rev)) (k : LKey), k ∉ l.map Prod.fst → getRevs l k = [] := by
  intro l
  induction l with
  | nil => intro k _; rfl
  | cons kv t ih =>
    intro k hk
    obtain ⟨k1, rs⟩ := kv
    simp only [List.map_cons, List.mem_cons, not_or] at hk
    rw [getRevs, if_neg (fun he => hk.1 he.symm)]
    exact ih k hk.2

theorem getState_some_mem_keys {s : St} {k : LKey} {v : LVal}
    (h : getState s k = some v) : k ∈ s.ledger.map Prod.fst := by
  by_contra hk
  rw [getState, getRevs_not_mem_keys s.ledger k hk] at h
  simp at h

theorem currentDocs_mem_getState :
    ∀ {l : List (LKey × List Rev)} {failing : List LKey}
      {events : List (String × List (String × String))} {k : LKey} {v : LVal},
    (l.map Prod.fst).Nodup →
    (k, v) ∈ currentDocs ⟨l, failing, events⟩ →
    getState ⟨l, failing, events⟩ k = some v := by
  intro l
  induction l with
  | nil => intro _ _ _ _ _ h; simp [currentDocs] at h
  | cons kv t ih =>
    intro failing events k v hnd h
    obtain ⟨k', rs⟩ := kv
    simp only [List.map_cons, List.nodup_cons] at hnd
    have hmem_keys : ∀ {k0 : LKey} {v0 : LVal},
        (k0, v0) ∈ currentDocs ⟨t, failing, events⟩ → k0 ∈ t.map Prod.fst := by
      intro k0 v0 hm
      simp only [currentDocs, List.mem_filterMap] at hm
      obtain ⟨⟨ka, ra⟩, hmem, hf⟩ := hm
      revert hf
      split
      · simp
      · split
        · simp
        · intro hf
          obtain ⟨h1, -⟩ := Prod.mk.inj (Option.some.inj hf)
          subst h1
          exact List.mem_map_of_mem _ hmem
    have htail : (k, v) ∈ currentDocs ⟨t, failing, events⟩ →
        getState ⟨(k', rs) :: t, failing, events⟩ k = some v := by
      intro hm
      have hkmem : k ∈ t.map Prod.fst := hmem_keys hm
      have hne : k' ≠ k := fun he => hnd.1 (he ▸ hkmem)
      rw [getState, getRevs, if_neg hne]
      exact @ih failing events k v hnd.2 hm
    simp only [currentDocs, List.filterMap_cons] at h
    revert h
    split
    · intro h
      exact htail h
    · rename_i r hlast
      intro h
      rcases List.mem_cons.mp h with he | hm
      · revert hlast
        split
        · intro hlast; simp at hlast
        · rename_i rv hgl
          split
          · intro hlast; simp at hlast
          · rename_i hdel
            intro hlast
            obtain ⟨h1, h2⟩ := Prod.mk.inj (he.trans (Option.some.inj hlast).symm)
            subst h1
            rw [getState, getRevs, if_pos rfl, hgl]
            simp [hdel, h2]
      · exact htail hm

theorem currentDocs_keys_sublist (s : St) :
    ((currentDocs s).map Prod.fst).Sublist (s.ledger.map Prod.fst) := by
  obtain ⟨l, failing, events⟩ := s
  induction l with
  | nil => simp [currentDocs]
  | cons kv t ih =>
    obtain ⟨k', rs⟩ := kv
    simp only [currentDocs, List.filterMap_cons] at *
    split
    · exact ih.cons _
    · rename_i b heq
      have hb : b.1 = k' := by
        revert heq
        split
        · simp
        · split
          · simp
          · intro heq
            obtain ⟨h1, -⟩ := Prod.mk.inj (Option.some.inj heq)
            rw [← h1]
      rw [List.map_cons, List.map_cons, hb]
      exact ih.cons₂ _

theorem currentDocs_keys_nodup {s : St} (hwf : wfSt s) :
    ((currentDocs s).map Prod.fst).Nodup :=
  hwf.sublist (currentDocs_keys_sublist s)

/-- The `int16` counter after `n` further loop iterations starting at `t0`. -/
def i16iter (t0 : Int) : Nat → Int
  | 0 => t0
  | n + 1 => i16wrap (i16iter t0 n + 1)

theorem i16iter_succ_left (t0 : Int) (n : Nat) :
    i16iter (i16wrap (t0 + 1)) n = i16iter t0 (n + 1) := by
  induction n with
  | zero => rfl
  | succ m ih =>
    rw [i16iter, ih]
    rfl

theorem i16iter_zero_eq_wrap (n : Nat) : i16iter 0 n = i16wrap n := by
  induction n with
  | zero => simp [i16iter, i16wrap]
  | succ m ih =>
    rw [i16iter, ih, i16wrap_add_left]
    push_cast
    ring_nf

/-- The product/manufacturer pair threaded through the update loop: the
last matched document wins. -/
def lastPM (ms : List (LKey × LVal)) (p0 m0 : String) : String × String :=
  match ms with
  | [] => (p0, m0)
  | kv :: rest => lastPM rest (decodeAsset kv.2).productId (decodeAsset kv.2).manufacturerId

theorem lastPM_eq_getLast? :
    ∀ (ms : List (LKey × LVal)) (p0 m0 : String) (kvl : LKey × LVal),
    ms.getLast? = some kvl →
    lastPM ms p0 m0 = ((decodeAsset kvl.2).productId, (decodeAsset kvl.2).manufacturerId) := by
  intro ms
  induction ms with
  | nil => intro _ _ _ h; simp at h
  | cons kv rest ih =>
    intro p0 m0 kvl hl
    cases rest with
    | nil =>
      simp only [List.getLast?_singleton, Option.some.injEq] at hl
      subst hl
      rfl
    | cons kv2 t =>
      rw [List.getLast?_cons_cons] at hl
      rw [lastPM]
      exact ih _ _ kvl hl

/-- Full characterization of the update loop on a matched list whose keys
are distinct, present, and writable. -/
theorem assetUpdateLoop_spec (tx : Tx) (newOwner newStatus : String) :
    ∀ (ms : List (LKey × LVal)) (p0 m0 : String) (t0 : Int) (s : St),
    (∀ kv ∈ ms, getState s kv.1 = some kv.2) →
    (ms.map Prod.fst).Nodup →
    (∀ kv ∈ ms, kv.1 ∉ s.failing) →
    ∃ s', assetUpdateLoop tx newOwner newStatus ms (p0, m0, t0, s) =
        .ok ((lastPM ms p0 m0).1, (lastPM ms p0 m0).2, i16iter t0 ms.length, s') ∧
      (∀ kv ∈ ms, getState s' kv.1 =
        some (.asset { decodeAsset kv.2 with owner := newOwner, status := newStatus })) ∧
      (∀ k, k ∉ ms.map Prod.fst → getState s' k = getState s k) ∧
      s'.failing = s.failing ∧ s'.events = s.events ∧
      s'.ledger.map Prod.fst = s.ledger.map Prod.fst := by
  intro ms
  induction ms with
  | nil =>
    intro p0 m0 t0 s _ _ _
    exact ⟨s, rfl, by simp, fun _ _ => rfl, rfl, rfl, rfl⟩
  | cons kv rest ih =>
    intro p0 m0 t0 s hget hnd hfail
    obtain ⟨k, v⟩ := kv
    simp only [List.map_cons, List.nodup_cons] at hnd
    have hkv : getState s k = some v := hget (k, v) (by simp)
    have hkmem : k ∈ s.ledger.map Prod.fst := getState_some_mem_keys hkv
    have hkf : k ∉ s.failing := hfail (k, v) (by simp)
    set a' : Asset := { decodeAsset v with owner := newOwner, status := newStatus } with ha'
    set s1 := statePut tx s k (.asset a') with hs1
    have hput : putState tx s k (.asset a') = .ok s1 := putState_ok tx _ hkf
    have hget1 : ∀ kv ∈ rest, getState s1 kv.1 = some kv.2 := by
      intro kv2 hm
      have hne : kv2.1 ≠ k := fun he => hnd.1 (he ▸ List.mem_map_of_mem _ hm)
      rw [hs1, getState_statePut_ne _ _ _ hne]
      exact hget kv2 (by simp [hm])
    have hfail1 : ∀ kv ∈ rest, kv.1 ∉ s1.failing := by
      intro kv2 hm
      rw [hs1, statePut_failing]
      exact hfail kv2 (by simp [hm])
    obtain ⟨s', hrun, hupd, hframe, hf, he, hkeys⟩ :=
      ih a'.productId a'.manufacturerId (i16wrap (t0 + 1)) s1 hget1 hnd.2 hfail1
    have hkeys1 : s1.ledger.map Prod.fst = s.ledger.map Prod.fst := by
      rw [hs1]
      exact putRev_keys_mem _ _ _ hkmem
    refine ⟨s', ?_, ?_, ?_, ?_, ?_, ?_⟩
    · simp only [assetUpdateLoop, hkv, hput]
      rw [hrun, lastPM, i16iter_succ_left]
      rfl
    · intro kv2 hm
      rcases List.mem_cons.mp hm with he2 | hm2
      · obtain ⟨h1, h2⟩ := Prod.mk.inj he2
        subst h1
        have hnot : kv2.1 ∉ rest.map Prod.fst := fun hmem => hnd.1 hmem
        rw [hframe _ hnot, hs1, h2, getState_statePut_same]
      · exact hupd kv2 hm2
    · intro k2 hk2
      simp only [List.map_cons, List.mem_cons, not_or] at hk2
      rw [hframe _ hk2.2, hs1, getState_statePut_ne _ _ _ hk2.1]
    · rw [hf, hs1, statePut_failing]
    · rw [he, hs1, statePut_events]
    · rw [hkeys, hkeys1]

/-- Wrapper of `currentDocs_mem_getState` on a packed state. -/
theorem currentDocs_mem_getState' {s : St} (hwf : wfSt s) {k : LKey} {v : LVal}
    (h : (k, v) ∈ currentDocs s) : getState s k = some v := by
  obtain ⟨l, failing, events⟩ := s
  exact currentDocs_mem_getState hwf h

theorem getState_setEvent (s : St) (n : String) (p : List (String × String)) (k : LKey) :
    getState (setEvent s n p) k = getState s k := rfl

/-- Zero matches: the query-and-update helper fails with the
no-matching-records error and performs no write. -/
theorem assetUpdate_zero (tx : Tx) (pred : LVal → Bool) (newOwner newStatus : String) (s : St)
    (h : (currentDocs s).filter (fun kv => pred kv.2) = []) :
    getQueryResultForAssetUpdateQueryString tx pred newOwner newStatus s =
      .error "No Records found for Transaction" := by
  rw [getQueryResultForAssetUpdateQueryString]
  simp [h]

/-- Nonzero matches in a well-formed, non-failing state: the helper succeeds,
returns the product/manufacturer pair of the last matched record and the
`int16`-wrapped match count, rewrites owner and status of every matched
record, and touches nothing else. -/
theorem assetUpdate_spec (tx : Tx) (pred : LVal → Bool) (newOwner newStatus : String) (s : St)
    (hwf : wfSt s) (hfail : s.failing = [])
    (hne : (currentDocs s).filter (fun kv => pred kv.2) ≠ []) :
    ∃ s', getQueryResultForAssetUpdateQueryString tx pred newOwner newStatus s =
        .ok ((lastPM ((currentDocs s).filter (fun kv => pred kv.2)) "" "").1,
             (lastPM ((currentDocs s).filter (fun kv => pred kv.2)) "" "").2,
             i16wrap ((currentDocs s).filter (fun kv => pred kv.2)).length, s') ∧
      (∀ kv ∈ (currentDocs s).filter (fun kv => pred kv.2), getState s' kv.1 =
        some (.asset { decodeAsset kv.2 with owner := newOwner, status := newStatus })) ∧
      (∀ k, k ∉ ((currentDocs s).filter (fun kv => pred kv.2)).map Prod.fst →
        getState s' k = getState s k) ∧
      s'.failing = s.failing ∧ s'.events = s.events ∧
      s'.ledger.map Prod.fst = s.ledger.map Prod.fst := by
  set matched := (currentDocs s).filter (fun kv => pred kv.2) with hm
  have hget : ∀ kv ∈ matched, getState s kv.1 = some kv.2 := by
    intro kv hkv
    exact currentDocs_mem_getState' hwf (List.mem_of_mem_filter hkv)
  have hnd : (matched.map Prod.fst).Nodup :=
    (currentDocs_keys_nodup hwf).sublist ((List.filter_sublist _).map _)
  have hfl : ∀ kv ∈ matched, kv.1 ∉ s.failing := by
    intro kv _
    rw [hfail]
    exact List.not_mem_nil _
  obtain ⟨s', hrun, hupd, hframe, hf, he, hkeys⟩ :=
    assetUpdateLoop_spec tx newOwner newStatus matched "" "" 0 s hget hnd hfl
  refine ⟨s', ?_, hupd, hframe, hf, he, hkeys⟩
  rw [getQueryResultForAssetUpdateQueryString, ← hm, if_neg (by simpa using hne)]
  rw [hrun, i16iter_zero_eq_wrap]

/-- Successful manufacturer-to-distributor shipment: with the caller profile
resolved, the counterparty registered and active as a distributor, at least
one matching unit, the referenced product present and active, and a fresh
transaction id, the call succeeds; every matched unit is rewritten to the
new owner and `ReceivedAtDistributor`, one receipt keyed by the transaction
id records the `int16` bill `perUnitSellingPrice * packetCapacity * count`,
one event is emitted, and nothing else changes. -/
theorem ShipToDistributor_spec (tx : Tx) (c : Caller) (inp : ShipToDistributorInput) (s : St)
    (man : Entity) (r : String) (dv : LVal) (prod : Product)
    (matched : List (LKey × LVal)) (p m : String)
    (hwf : wfSt s) (hfail : s.failing = [])
    (hprof : getProfileDetails c s = .ok (man, r))
    (hvend : IsActive s inp.customerId DISTRIBUTER = .ok (some dv))
    (hmatch : (currentDocs s).filter (fun kv => predOwnerCarton man.id inp.cartonId kv.2) = matched)
    (hne : matched ≠ [])
    (hpm : lastPM matched "" "" = (p, m))
    (hprod : getState s (.comp (p ++ m) ITEM) = some (.product prod))
    (hsusp : prod.suspended = false)
    (htx : getState s (.flat tx.txId) = none) :
    ∃ s', ShipToDistributor tx c inp s = .ok s' ∧
      (∀ kv ∈ matched, getState s' kv.1 =
        some (.asset
          { decodeAsset kv.2 with owner := inp.customerId, status := Statuses.ReceivedAtDistributor })) ∧
      getState s' (.flat tx.txId) = some (.receipt
        { id := tx.txId, bundleId := inp.cartonId, docType := RECEIPT,
          supplierId := man.id, customerId := inp.customerId, productId := p,
          transactionDate := inp.transactionDate,
          billAmount := i16wrap (inp.perUnitSellingPrice * prod.packetCapacity * matched.length) }) ∧
      (∀ k, k ∉ matched.map Prod.fst → k ≠ .flat tx.txId → getState s' k = getState s k) ∧
      s'.events = s.events ++ [("Distributor Shipment Alert",
        shipEvent man.id inp.customerId inp.transactionDate inp.perUnitSellingPrice m p
          (i16wrap matched.length)
          (i16wrap (inp.perUnitSellingPrice * prod.packetCapacity * matched.length)))] := by
  obtain ⟨s1, hrun, hupd, hframe, hf1, he1, hkeys1⟩ :=
    assetUpdate_spec tx (predOwnerCarton man.id inp.cartonId) inp.customerId
      Statuses.ReceivedAtDistributor s hwf hfail (hmatch ▸ hne)
  rw [hmatch, hpm] at hrun
  rw [show ((p, m).1 : String) = p from rfl, show ((p, m).2 : String) = m from rfl] at hrun
  rw [hmatch] at hupd hframe
  have hmem_getState : ∀ kv ∈ matched, getState s kv.1 = some kv.2 := by
    intro kv hkv
    exact currentDocs_mem_getState' hwf (List.mem_of_mem_filter (hmatch ▸ hkv))
  have hprodkey : (LKey.comp (p ++ m) ITEM) ∉ matched.map Prod.fst := by
    intro hmem
    obtain ⟨kv, hkv, heq⟩ := List.mem_map.mp hmem
    have hv := hmem_getState kv hkv
    rw [heq, hprod] at hv
    have hkv2 : kv.2 = LVal.product prod := (Option.some.inj hv).symm
    have hpred := List.of_mem_filter (hmatch ▸ hkv)
    rw [hkv2] at hpred
    simp [predOwnerCarton, fieldCartonId] at hpred
  have htxkey : (LKey.flat tx.txId) ∉ matched.map Prod.fst := by
    intro hmem
    obtain ⟨kv, hkv, heq⟩ := List.mem_map.mp hmem
    have hv := hmem_getState kv hkv
    rw [heq, htx] at hv
    simp at hv
  have hs1prod : getState s1 (.comp (p ++ m) ITEM) = some (.product prod) := by
    rw [hframe _ hprodkey]
    exact hprod
  have hIA : IsActive s1 (p ++ m) ITEM = .ok (some (.product prod)) := by
    rw [IsActive, hs1prod]
    simp [suspendedOf, hsusp]
  have hf1' : s1.failing = [] := by rw [hf1, hfail]
  have hbill : i16wrap (i16wrap (inp.perUnitSellingPrice * prod.packetCapacity) *
      i16wrap (matched.length : Int)) =
      i16wrap (inp.perUnitSellingPrice * prod.packetCapacity * matched.length) := by
    rw [i16wrap_mul_left, i16wrap_mul_right]
  set rec : Receipt :=
    { id := tx.txId, bundleId := inp.cartonId, docType := RECEIPT,
      supplierId := man.id, customerId := inp.customerId, productId := p,
      transactionDate := inp.transactionDate,
      billAmount := i16wrap (inp.perUnitSellingPrice * prod.packetCapacity * matched.length) }
    with hrec
  have hins : insertData tx s1 (.receipt rec) tx.txId "" =
      .ok (statePut tx s1 (.flat tx.txId) (.receipt rec)) := by
    rw [insertData]
    simp only [ne_eq, not_true_eq_false, if_false, reduceIte]
    exact putState_ok tx _ (by rw [hf1']; exact List.not_mem_nil _)
  set s2 := statePut tx s1 (.flat tx.txId) (.receipt rec) with hs2
  have hCR : createReceipt tx inp.cartonId man.id inp.customerId p inp.transactionDate
      (i16wrap (inp.perUnitSellingPrice * prod.packetCapacity * matched.length)) s1 = .ok s2 := by
    rw [createReceipt, hins]
  refine ⟨setEvent s2 "Distributor Shipment Alert"
      (shipEvent man.id inp.customerId inp.transactionDate inp.perUnitSellingPrice m p
        (i16wrap matched.length)
        (i16wrap (inp.perUnitSellingPrice * prod.packetCapacity * matched.length))),
    ?_, ?_, ?_, ?_, ?_⟩
  · simp only [ShipToDistributor, hprof, hvend, hrun, hIA, decodeProduct]
    rw [hbill, hCR]
  · intro kv hkv
    have hne2 : kv.1 ≠ LKey.flat tx.txId := by
      intro he
      exact htxkey (by rw [← he]; exact List.mem_map_of_mem _ hkv)
    rw [getState_setEvent, hs2, getState_statePut_ne _ _ _ hne2]
    exact hupd kv hkv
  · rw [getState_setEvent, hs2, getState_statePut_same, hrec]
  · intro k hk1 hk2
    rw [getState_setEvent, hs2, getState_statePut_ne _ _ _ hk2]
    exact hframe _ hk1
  · show s2.events ++ _ = _
    rw [hs2, statePut_events, he1]

/-- Successful distributor-to-chemist shipment: one-unit transfer to the
chemist with `int16` bill `perUnitSellingPrice * packetCapacity`.  (Unlike
the distributor selector, the owner/id selector could in a pathological
state also match the product record itself; `hprodkey` rules that out.) -/
theorem ShipToChemist_spec (tx : Tx) (c : Caller) (inp : ShipToChemistInput) (s : St)
    (dist : Entity) (r : String) (dv : LVal) (prod : Product)
    (matched : List (LKey × LVal)) (p m : String)
    (hwf : wfSt s) (hfail : s.failing = [])
    (hprof : getProfileDetails c s = .ok (dist, r))
    (hvend : IsActive s inp.customerId CHEMIST = .ok (some dv))
    (hmatch : (currentDocs s).filter (fun kv => predOwnerId dist.id inp.packetId kv.2) = matched)
    (hne : matched ≠ [])
    (hpm : lastPM matched "" "" = (p, m))
    (hprod : getState s (.comp (p ++ m) ITEM) = some (.product prod))
    (hsusp : prod.suspended = false)
    (hprodkey : LKey.comp (p ++ m) ITEM ∉ matched.map Prod.fst)
    (htx : getState s (.flat tx.txId) = none) :
    ∃ s', ShipToChemist tx c inp s = .ok s' ∧
      (∀ kv ∈ matched, getState s' kv.1 =
        some (.asset
          { decodeAsset kv.2 with owner := inp.customerId, status := Statuses.ChemistInventoryReceived })) ∧
      getState s' (.flat tx.txId) = some (.receipt
        { id := tx.txId, bundleId := inp.packetId, docType := RECEIPT,
          supplierId := dist.id, customerId := inp.customerId, productId := p,
          transactionDate := inp.transactionDate,
          billAmount := i16wrap (inp.perUnitSellingPrice * prod.packetCapacity) }) ∧
      (∀ k, k ∉ matched.map Prod.fst → k ≠ .flat tx.txId → getState s' k = getState s k) ∧
      s'.events = s.events ++ [("Chemist Shipment Alert",
        shipEvent dist.id inp.customerId inp.transactionDate inp.perUnitSellingPrice m p 1
          (i16wrap (inp.perUnitSellingPrice * prod.packetCapacity)))] := by
  obtain ⟨s1, hrun, hupd, hframe, hf1, he1, hkeys1⟩ :=
    assetUpdate_spec tx (predOwnerId dist.id inp.packetId) inp.customerId
      Statuses.ChemistInventoryReceived s hwf hfail (hmatch ▸ hne)
  rw [hmatch, hpm] at hrun
  rw [show ((p, m).1 : String) = p from rfl, show ((p, m).2 : String) = m from rfl] at hrun
  rw [hmatch] at hupd hframe
  have hmem_getState : ∀ kv ∈ matched, getState s kv.1 = some kv.2 := by
    intro kv hkv
    exact currentDocs_mem_getState' hwf (List.mem_of_mem_filter (hmatch ▸ hkv))
  have htxkey : (LKey.flat tx.txId) ∉ matched.map Prod.fst := by
    intro hmem
    obtain ⟨kv, hkv, heq⟩ := List.mem_map.mp hmem
    have hv := hmem_getState kv hkv
    rw [heq, htx] at hv
    simp at hv
  have hs1prod : getState s1 (.comp (p ++ m) ITEM) = some (.product prod) := by
    rw [hframe _ hprodkey]
    exact hprod
  have hIA : IsActive s1 (p ++ m) ITEM = .ok (some (.product prod)) := by
    rw [IsActive, hs1prod]
    simp [suspendedOf, hsusp]
  have hf1' : s1.failing = [] := by rw [hf1, hfail]
  set rec : Receipt :=
    { id := tx.txId, bundleId := inp.packetId, docType := RECEIPT,
      supplierId := dist.id, customerId := inp.customerId, productId := p,
      transactionDate := inp.transactionDate,
      billAmount := i16wrap (inp.perUnitSellingPrice * prod.packetCapacity) }
    with hrec
  have hins : insertData tx s1 (.receipt rec) tx.txId "" =
      .ok (statePut tx s1 (.flat tx.txId) (.receipt rec)) := by
    rw [insertData]
    simp only [ne_eq, not_true_eq_false, if_false, reduceIte]
    exact putState_ok tx _ (by rw [hf1']; exact List.not_mem_nil _)
  set s2 := statePut tx s1 (.flat tx.txId) (.receipt rec) with hs2
  have hCR : createReceipt tx inp.packetId dist.id inp.customerId p inp.transactionDate
      (i16wrap (inp.perUnitSellingPrice * prod.packetCapacity)) s1 = .ok s2 := by
    rw [createReceipt, hins]
  refine ⟨setEvent s2 "Chemist Shipment Alert"
      (shipEvent dist.id inp.customerId inp.transactionDate inp.perUnitSellingPrice m p 1
        (i16wrap (inp.perUnitSellingPrice * prod.packetCapacity))),
    ?_, ?_, ?_, ?_, ?_⟩
  · simp only [ShipToChemist, hprof, hvend, hrun, hIA, decodeProduct]
    rw [hCR]
  · intro kv hkv
    have hne2 : kv.1 ≠ LKey.flat tx.txId := by
      intro he
      exact htxkey (by rw [← he]; exact List.mem_map_of_mem _ hkv)
    rw [getState_setEvent, hs2, getState_statePut_ne _ _ _ hne2]
    exact hupd kv hkv
  · rw [getState_setEvent, hs2, getState_statePut_same, hrec]
  · intro k hk1 hk2
    rw [getState_setEvent, hs2, getState_statePut_ne _ _ _ hk2]
    exact hframe _ hk1
  · show s2.events ++ _ = _
    rw [hs2, statePut_events, he1]

/-- Successful chemist-to-customer sale: one-unit transfer with no
counterparty validation and the `int16` bill `price * packetCapacity`
taken from the catalog (the input carries no price field). -/
theorem ShipToCustomer_spec (tx : Tx) (c : Caller) (inp : ShipToCustomerInput) (s : St)
    (chem : Entity) (r : String) (prod : Product)
    (matched : List (LKey × LVal)) (p m : String)
    (hwf : wfSt s) (hfail : s.failing = [])
    (hprof : getProfileDetails c s = .ok (chem, r))
    (hmatch : (currentDocs s).filter (fun kv => predOwnerId chem.id inp.packetId kv.2) = matched)
    (hne : matched ≠ [])
    (hpm : lastPM matched "" "" = (p, m))
    (hprod : getState s (.comp (p ++ m) ITEM) = some (.product prod))
    (hsusp : prod.suspended = false)
    (hprodkey : LKey.comp (p ++ m) ITEM ∉ matched.map Prod.fst)
    (htx : getState s (.flat tx.txId) = none) :
    ∃ s', ShipToCustomer tx c inp s = .ok s' ∧
      (∀ kv ∈ matched, getState s' kv.1 =
        some (.asset
          { decodeAsset kv.2 with owner := inp.customerId, status := Statuses.SoldToCustomer })) ∧
      getState s' (.flat tx.txId) = some (.receipt
        { id := tx.txId, bundleId := inp.packetId, docType := RECEIPT,
          supplierId := chem.id, customerId := inp.customerId, productId := p,
          transactionDate := inp.transactionDate,
          billAmount := i16wrap (prod.price * prod.packetCapacity) }) ∧
      (∀ k, k ∉ matched.map Prod.fst → k ≠ .flat tx.txId → getState s' k = getState s k) ∧
      s'.events = s.events ++ [("Customer Selling Alert",
        shipEvent chem.id inp.customerId inp.transactionDate prod.price m p 1
          (i16wrap (prod.price * prod.packetCapacity)))] := by
  obtain ⟨s1, hrun, hupd, hframe, hf1, he1, hkeys1⟩ :=
    assetUpdate_spec tx (predOwnerId chem.id inp.packetId) inp.customerId
      Statuses.SoldToCustomer s hwf hfail (hmatch ▸ hne)
  rw [hmatch, hpm] at hrun
  rw [show ((p, m).1 : String) = p from rfl, show ((p, m).2 : String) = m from rfl] at hrun
  rw [hmatch] at hupd hframe
  have hmem_getState : ∀ kv ∈ matched, getState s kv.1 = some kv.2 := by
    intro kv hkv
    exact currentDocs_mem_getState' hwf (List.mem_of_mem_filter (hmatch ▸ hkv))
  have htxkey : (LKey.flat tx.txId) ∉ matched.map Prod.fst := by
    intro hmem
    obtain ⟨kv, hkv, heq⟩ := List.mem_map.mp hmem
    have hv := hmem_getState kv hkv
    rw [heq, htx] at hv
    simp at hv
  have hs1prod : getState s1 (.comp (p ++ m) ITEM) = some (.product prod) := by
    rw [hframe _ hprodkey]
    exact hprod
  have hIA : IsActive s1 (p ++ m) ITEM = .ok (some (.product prod)) := by
    rw [IsActive, hs1prod]
    simp [suspendedOf, hsusp]
  have hf1' : s1.failing = [] := by rw [hf1, hfail]
  set rec : Receipt :=
    { id := tx.txId, bundleId := inp.packetId, docType := RECEIPT,
      supplierId := chem.id, customerId := inp.customerId, productId := p,
      transactionDate := inp.transactionDate,
      billAmount := i16wrap (prod.price * prod.packetCapacity) }
    with hrec
  have hins : insertData tx s1 (.receipt rec) tx.txId "" =
      .ok (statePut tx s1 (.flat tx.txId) (.receipt rec)) := by
    rw [insertData]
    simp only [ne_eq, not_true_eq_false, if_false, reduceIte]
    exact putState_ok tx _ (by rw [hf1']; exact List.not_mem_nil _)
  set s2 := statePut tx s1 (.flat tx.txId) (.receipt rec) with hs2
  have hCR : createReceipt tx inp.packetId chem.id inp.customerId p inp.transactionDate
      (i16wrap (prod.price * prod.packetCapacity)) s1 = .ok s2 := by
    rw [createReceipt, hins]
  refine ⟨setEvent s2 "Customer Selling Alert"
      (shipEvent chem.id inp.customerId inp.transactionDate prod.price m p 1
        (i16wrap (prod.price * prod.packetCapacity))),
    ?_, ?_, ?_, ?_, ?_⟩
  · simp only [ShipToCustomer, hprof, hrun, hIA, decodeProduct]
    rw [hCR]
  · intro kv hkv
    have hne2 : kv.1 ≠ LKey.flat tx.txId := by
      intro he
      exact htxkey (by rw [← he]; exact List.mem_map_of_mem _ hkv)
    rw [getState_setEvent, hs2, getState_statePut_ne _ _ _ hne2]
    exact hupd kv hkv
  · rw [getState_setEvent, hs2, getState_statePut_same, hrec]
  · intro k hk1 hk2
    rw [getState_setEvent, hs2, getState_statePut_ne _ _ _ hk2]
    exact hframe _ hk1
  · show s2.events ++ _ = _
    rw [hs2, statePut_events, he1]

/-! ### C3: zero-match failure, otherwise rewrite of every matched unit -/

/-- C3: for each of the three transfer operations, once the caller profile
and (where the operation checks one) the counterparty have been resolved,
a selector matching zero stored records makes the whole invocation return
the no-matching-records error — and an invocation that returns an error
commits no write, so no unit is modified; when units do match and the
remaining steps find an active product and a fresh transaction id, the
call succeeds and every matched unit is rewritten with owner = the named
counterparty and status = the fixed target state of that operation
(`ReceivedAtDistributor`, `ChemistInventoryReceived`, `SoldToCustomer`). -/
theorem C3_transfer_no_match_or_rewrite_all :
    (∀ (tx : Tx) (c : Caller) (inp : ShipToDistributorInput) (s : St)
       (man : Entity) (r : String) (dv : LVal),
      getProfileDetails c s = .ok (man, r) →
      IsActive s inp.customerId DISTRIBUTER = .ok (some dv) →
      (currentDocs s).filter (fun kv => predOwnerCarton man.id inp.cartonId kv.2) = [] →
      ShipToDistributor tx c inp s = .error "No Records found for Transaction") ∧
    (∀ (tx : Tx) (c : Caller) (inp : ShipToChemistInput) (s : St)
       (dist : Entity) (r : String) (dv : LVal),
      getProfileDetails c s = .ok (dist, r) →
      IsActive s inp.customerId CHEMIST = .ok (some dv) →
      (currentDocs s).filter (fun kv => predOwnerId dist.id inp.packetId kv.2) = [] →
      ShipToChemist tx c inp s = .error "No Records found for Transaction") ∧
    (∀ (tx : Tx) (c : Caller) (inp : ShipToCustomerInput) (s : St)
       (chem : Entity) (r : String),
      getProfileDetails c s = .ok (chem, r) →
      (currentDocs s).filter (fun kv => predOwnerId chem.id inp.packetId kv.2) = [] →
      ShipToCustomer tx c inp s = .error "No Records found for Transaction") ∧
    (∀ (tx : Tx) (c : Caller) (inp : ShipToDistributorInput) (s : St)
       (man : Entity) (r : String) (dv : LVal) (prod : Product)
       (matched : List (LKey × LVal)) (p m : String),
      wfSt s → s.failing = [] →
      getProfileDetails c s = .ok (man, r) →
      IsActive s inp.customerId DISTRIBUTER = .ok (some dv) →
      (currentDocs s).filter (fun kv => predOwnerCarton man.id inp.cartonId kv.2) = matched →
      matched ≠ [] →
      lastPM matched "" "" = (p, m) →
      getState s (.comp (p ++ m) ITEM) = some (.product prod) →
      prod.suspended = false →
      getState s (.flat tx.txId) = none →
      ∃ s', ShipToDistributor tx c inp s = .ok s' ∧
        ∀ kv ∈ matched, getState s' kv.1 = some (.asset
          { decodeAsset kv.2 with owner := inp.customerId, status := Statuses.ReceivedAtDistributor })) ∧
    (∀ (tx : Tx) (c : Caller) (inp : ShipToChemistInput) (s : St)
       (dist : Entity) (r : String) (dv : LVal) (prod : Product)
       (matched : List (LKey × LVal)) (p m : String),
      wfSt s → s.failing = [] →
      getProfileDetails c s = .ok (dist, r) →
      IsActive s inp.customerId CHEMIST = .ok (some dv) →
      (currentDocs s).filter (fun kv => predOwnerId dist.id inp.packetId kv.2) = matched →
      matched ≠ [] →
      lastPM matched "" "" = (p, m) →
      getState s (.comp (p ++ m) ITEM) = some (.product prod) →
      prod.suspended = false →
      LKey.comp (p ++ m) ITEM ∉ matched.map Prod.fst →
      getState s (.flat tx.txId) = none →
      ∃ s', ShipToChemist tx c inp s = .ok s' ∧
        ∀ kv ∈ matched, getState s' kv.1 = some (.asset
          { decodeAsset kv.2 with owner := inp.customerId, status := Statuses.ChemistInventoryReceived })) ∧
    (∀ (tx : Tx) (c : Caller) (inp : ShipToCustomerInput) (s : St)
       (chem : Entity) (r : String) (prod : Product)
       (matched : List (LKey × LVal)) (p m : String),
      wfSt s → s.failing = [] →
      getProfileDetails c s = .ok (chem, r) →
      (currentDocs s).filter (fun kv => predOwnerId chem.id inp.packetId kv.2) = matched →
      matched ≠ [] →
      lastPM matched "" "" = (p, m) →
      getState s (.comp (p ++ m) ITEM) = some (.product prod) →
      prod.suspended = false →
      LKey.comp (p ++ m) ITEM ∉ matched.map Prod.fst →
      getState s (.flat tx.txId) = none →
      ∃ s', ShipToCustomer tx c inp s = .ok s' ∧
        ∀ kv ∈ matched, getState s' kv.1 = some (.asset
          { decodeAsset kv.2 with owner := inp.customerId, status := Statuses.SoldToCustomer })) := by
  refine ⟨?_, ?_, ?_, ?_, ?_, ?_⟩
  · intro tx c inp s man r dv hprof hvend hzero
    simp only [ShipToDistributor, hprof, hvend,
      assetUpdate_zero tx (predOwnerCarton man.id inp.cartonId) inp.customerId
        Statuses.ReceivedAtDistributor s hzero]
  · intro tx c inp s dist r dv hprof hvend hzero
    simp only [ShipToChemist, hprof, hvend,
      assetUpdate_zero tx (predOwnerId dist.id inp.packetId) inp.customerId
        Statuses.ChemistInventoryReceived s hzero]
  · intro tx c inp s chem r hprof hzero
    simp only [ShipToCustomer, hprof,
      assetUpdate_zero tx (predOwnerId chem.id inp.packetId) inp.customerId
        Statuses.SoldToCustomer s hzero]
  · intro tx c inp s man r dv prod matched p m hwf hfail hprof hvend hmatch hne hpm hprod hsusp htx
    obtain ⟨s', h1, h2, -, -, -⟩ :=
      ShipToDistributor_spec tx c inp s man r dv prod matched p m hwf hfail hprof hvend
        hmatch hne hpm hprod hsusp htx
    exact ⟨s', h1, h2⟩
  · intro tx c inp s dist r dv prod matched p m hwf hfail hprof hvend hmatch hne hpm hprod
      hsusp hpk htx
    obtain ⟨s', h1, h2, -, -, -⟩ :=
      ShipToChemist_spec tx c inp s dist r dv prod matched p m hwf hfail hprof hvend
        hmatch hne hpm hprod hsusp hpk htx
    exact ⟨s', h1, h2⟩
  · intro tx c inp s chem r prod matched p m hwf hfail hprof hmatch hne hpm hprod hsusp hpk htx
    obtain ⟨s', h1, h2, -, -, -⟩ :=
      ShipToCustomer_spec tx c inp s chem r prod matched p m hwf hfail hprof
        hmatch hne hpm hprod hsusp hpk htx
    exact ⟨s', h1, h2⟩

/-- The ledger after the scenario batch: two units `MF_B0_C1_P1` and
`MF_B0_C1_P2` owned by `MF`, plus the batch record and the incremented
manufacturer counter. -/
def scnAfterBatch : St :=
  match AddBatch scnTx1 callerMF scnBatch scnState with
  | .ok s => s
  | .error _ => scnState

def scnUnit1 : Asset :=
  { id := "MF_B0_C1_P1", batchId := "B0", cartonId := "B0_C1", owner := "MF",
    status := Statuses.ReadyForDistribution, productId := "P1", manufacturerId := "MF",
    manufacturingDate := 100, expiryDate := 200, docType := ASSET }

def scnUnit2 : Asset := { scnUnit1 with id := "MF_B0_C1_P2" }

def scnMatched : List (LKey × LVal) :=
  [(.flat "MF_B0_C1_P1", .asset scnUnit1), (.flat "MF_B0_C1_P2", .asset scnUnit2)]

def entMF1 : Entity := { entMF with batchCount := 1 }

/-- C3 witness: in the registered ledger with no units, shipping carton
`B0_C1` fails with the no-matching-records error; after the batch, the
same call succeeds and rewrites both packets of the carton. -/
theorem C3_witness :
    (ShipToDistributor scnTx2 callerMF ⟨"DS", "B0_C1", 25, 7⟩ scnState =
      .error "No Records found for Transaction") ∧
    (∃ s', ShipToDistributor scnTx2 callerMF ⟨"DS", "B0_C1", 25, 7⟩ scnAfterBatch = .ok s' ∧
      ∀ kv ∈ scnMatched, getState s' kv.1 = some (.asset
        { decodeAsset kv.2 with owner := "DS", status := Statuses.ReceivedAtDistributor })) := by
  constructor
  · exact C3_transfer_no_match_or_rewrite_all.1 scnTx2 callerMF ⟨"DS", "B0_C1", 25, 7⟩
      scnState entMF "MANUFACTURER" (.entity entDS) rfl rfl rfl
  · exact C3_transfer_no_match_or_rewrite_all.2.2.2.1 scnTx2 callerMF ⟨"DS", "B0_C1", 25, 7⟩
      scnAfterBatch entMF1 "MANUFACTURER" (.entity entDS) prodP1 scnMatched "P1" "MF"
      (by decide) rfl rfl rfl rfl (by decide) rfl rfl rfl rfl

/-! ### C5: counterparty validation -/

def isOkE {α : Type} : Except Err α → Bool
  | .ok _ => true
  | .error _ => false

/-- The ledger after the batch and a (role-unchecked) shipment of unit
`MF_B0_C1_P1` to the chemist `CH`. -/
def scnAfterChem : St :=
  match ShipToChemist scnTx2 callerMF ⟨"CH", "MF_B0_C1_P1", 25, 7⟩ scnAfterBatch with
  | .ok s => s
  | .error _ => scnAfterBatch

/-- C5 counterexample: `ShipToCustomer` performs no counterparty validation
at all.  In a reachable ledger the chemist sells unit `MF_B0_C1_P1` to
`alice`, who is registered under no role whatsoever, and the call
succeeds — the claim requires every transfer operation to reject an
unregistered counterparty. -/
theorem C5_counterexample :
    getState scnAfterChem (.comp "alice" MANUFACTURER) = none ∧
    getState scnAfterChem (.comp "alice" DISTRIBUTER) = none ∧
    getState scnAfterChem (.comp "alice" CHEMIST) = none ∧
    getState scnAfterChem (.comp "alice" VACCINE_CHAIN_ADMIN) = none ∧
    isOkE (ShipToCustomer scnTx3 callerCH ⟨"alice", "MF_B0_C1_P1", 30⟩ scnAfterChem) = true := by
  exact ⟨rfl, rfl, rfl, rfl, rfl⟩

/-- C5 (amended): `ShipToDistributor` and `ShipToChemist` reject a
counterparty that is not registered under the expected target role
(distributor and chemist respectively) and, via the helper `IsActive`, one
whose record is suspended; `ShipToCustomer` performs no counterparty
validation, so an arbitrary, unregistered customer id is accepted (the
counterexample exhibits this). -/
theorem C5_distributor_chemist_validation :
    (∀ (tx : Tx) (c : Caller) (inp : ShipToDistributorInput) (s : St) (man : Entity) (r : String),
      getProfileDetails c s = .ok (man, r) →
      getState s (.comp inp.customerId DISTRIBUTER) = none →
      ShipToDistributor tx c inp s = .error ("Record does not exist with ID: " ++ inp.customerId)) ∧
    (∀ (tx : Tx) (c : Caller) (inp : ShipToDistributorInput) (s : St) (man : Entity) (r : String)
       (v : LVal),
      getProfileDetails c s = .ok (man, r) →
      getState s (.comp inp.customerId DISTRIBUTER) = some v →
      suspendedOf v = true →
      ShipToDistributor tx c inp s = .error ("Record for " ++ inp.customerId ++ " is not active")) ∧
    (∀ (tx : Tx) (c : Caller) (inp : ShipToChemistInput) (s : St) (dist : Entity) (r : String),
      getProfileDetails c s = .ok (dist, r) →
      getState s (.comp inp.customerId CHEMIST) = none →
      ShipToChemist tx c inp s = .error ("Record does not exist with ID: " ++ inp.customerId)) ∧
    (∀ (tx : Tx) (c : Caller) (inp : ShipToChemistInput) (s : St) (dist : Entity) (r : String)
       (v : LVal),
      getProfileDetails c s = .ok (dist, r) →
      getState s (.comp inp.customerId CHEMIST) = some v →
      suspendedOf v = true →
      ShipToChemist tx c inp s = .error ("Record for " ++ inp.customerId ++ " is not active")) := by
  refine ⟨?_, ?_, ?_, ?_⟩
  · intro tx c inp s man r hprof habs
    simp [ShipToDistributor, hprof, IsActive, habs]
  · intro tx c inp s man r v hprof hsome hsusp
    simp [ShipToDistributor, hprof, IsActive, hsome, hsusp]
  · intro tx c inp s dist r hprof habs
    simp [ShipToChemist, hprof, IsActive, habs]
  · intro tx c inp s dist r v hprof hsome hsusp
    simp [ShipToChemist, hprof, IsActive, hsome, hsusp]

/-- C5 witness: the unregistered id `alice` and the suspended distributor
`DX` and chemist `CX` are each rejected. -/
theorem C5_witness :
    ShipToDistributor scnTx2 callerMF ⟨"alice", "B0_C1", 25, 7⟩ scnState =
      .error "Record does not exist with ID: alice" ∧
    ShipToDistributor scnTx2 callerMF ⟨"DX", "B0_C1", 25, 7⟩ scnState =
      .error "Record for DX is not active" ∧
    ShipToChemist scnTx2 callerMF ⟨"alice", "MF_B0_C1_P1", 25, 7⟩ scnState =
      .error "Record does not exist with ID: alice" ∧
    ShipToChemist scnTx2 callerMF ⟨"CX", "MF_B0_C1_P1", 25, 7⟩ scnState =
      .error "Record for CX is not active" := by
  refine ⟨?_, ?_, ?_, ?_⟩
  · exact C5_distributor_chemist_validation.1 scnTx2 callerMF ⟨"alice", "B0_C1", 25, 7⟩
      scnState entMF "MANUFACTURER" rfl rfl
  · exact C5_distributor_chemist_validation.2.1 scnTx2 callerMF ⟨"DX", "B0_C1", 25, 7⟩
      scnState entMF "MANUFACTURER" (.entity entDX) rfl rfl rfl
  · exact C5_distributor_chemist_validation.2.2.1 scnTx2 callerMF ⟨"alice", "MF_B0_C1_P1", 25, 7⟩
      scnState entMF "MANUFACTURER" rfl rfl
  · exact C5_distributor_chemist_validation.2.2.2 scnTx2 callerMF ⟨"CX", "MF_B0_C1_P1", 25, 7⟩
      scnState entMF "MANUFACTURER" (.entity entCX) rfl rfl rfl

/-! ### C6 and C10: bill amounts -/

/-- C6: the receipt bill is computed (in the `int16` arithmetic of the
source, see the companion claim on wrap-around) as: manufacturer to
distributor — input per-unit selling price times the product packet
capacity times the number of transferred units; distributor to chemist —
input per-unit selling price times packet capacity; chemist to customer —
the catalog price times packet capacity, the input carrying no price field
at all. -/
theorem C6_receipt_bill_amounts :
    (∀ (tx : Tx) (c : Caller) (inp : ShipToDistributorInput) (s : St)
       (man : Entity) (r : String) (dv : LVal) (prod : Product)
       (matched : List (LKey × LVal)) (p m : String),
      wfSt s → s.failing = [] →
      getProfileDetails c s = .ok (man, r) →
      IsActive s inp.customerId DISTRIBUTER = .ok (some dv) →
      (currentDocs s).filter (fun kv => predOwnerCarton man.id inp.cartonId kv.2) = matched →
      matched ≠ [] →
      lastPM matched "" "" = (p, m) →
      getState s (.comp (p ++ m) ITEM) = some (.product prod) →
      prod.suspended = false →
      getState s (.flat tx.txId) = none →
      ∃ s', ShipToDistributor tx c inp s = .ok s' ∧
        getState s' (.flat tx.txId) = some (.receipt
          { id := tx.txId, bundleId := inp.cartonId, docType := RECEIPT,
            supplierId := man.id, customerId := inp.customerId, productId := p,
            transactionDate := inp.transactionDate,
            billAmount := i16wrap (inp.perUnitSellingPrice * prod.packetCapacity * matched.length) })) ∧
    (∀ (tx : Tx) (c : Caller) (inp : ShipToChemistInput) (s : St)
       (dist : Entity) (r : String) (dv : LVal) (prod : Product)
       (matched : List (LKey × LVal)) (p m : String),
      wfSt s → s.failing = [] →
      getProfileDetails c s = .ok (dist, r) →
      IsActive s inp.customerId CHEMIST = .ok (some dv) →
      (currentDocs s).filter (fun kv => predOwnerId dist.id inp.packetId kv.2) = matched →
      matched ≠ [] →
      lastPM matched "" "" = (p, m) →
      getState s (.comp (p ++ m) ITEM) = some (.product prod) →
      prod.suspended = false →
      LKey.comp (p ++ m) ITEM ∉ matched.map Prod.fst →
      getState s (.flat tx.txId) = none →
      ∃ s', ShipToChemist tx c inp s = .ok s' ∧
        getState s' (.flat tx.txId) = some (.receipt
          { id := tx.txId, bundleId := inp.packetId, docType := RECEIPT,
            supplierId := dist.id, customerId := inp.customerId, productId := p,
            transactionDate := inp.transactionDate,
            billAmount := i16wrap (inp.perUnitSellingPrice * prod.packetCapacity) })) ∧
    (∀ (tx : Tx) (c : Caller) (inp : ShipToCustomerInput) (s : St)
       (chem : Entity) (r : String) (prod : Product)
       (matched : List (LKey × LVal)) (p m : String),
      wfSt s → s.failing = [] →
      getProfileDetails c s = .ok (chem, r) →
      (currentDocs s).filter (fun kv => predOwnerId chem.id inp.packetId kv.2) = matched →
      matched ≠ [] →
      lastPM matched "" "" = (p, m) →
      getState s (.comp (p ++ m) ITEM) = some (.product prod) →
      prod.suspended = false →
      LKey.comp (p ++ m) ITEM ∉ matched.map Prod.fst →
      getState s (.flat tx.txId) = none →
      ∃ s', ShipToCustomer tx c inp s = .ok s' ∧
        getState s' (.flat tx.txId) = some (.receipt
          { id := tx.txId, bundleId := inp.packetId, docType := RECEIPT,
            supplierId := chem.id, customerId := inp.customerId, productId := p,
            transactionDate := inp.transactionDate,
            billAmount := i16wrap (prod.price * prod.packetCapacity) })) := by
  refine ⟨?_, ?_, ?_⟩
  · intro tx c inp s man r dv prod matched p m hwf hfail hprof hvend hmatch hne hpm hprod hsusp htx
    obtain ⟨s', h1, -, h3, -, -⟩ :=
      ShipToDistributor_spec tx c inp s man r dv prod matched p m hwf hfail hprof hvend
        hmatch hne hpm hprod hsusp htx
    exact ⟨s', h1, h3⟩
  · intro tx c inp s dist r dv prod matched p m hwf hfail hprof hvend hmatch hne hpm hprod
      hsusp hpk htx
    obtain ⟨s', h1, -, h3, -, -⟩ :=
      ShipToChemist_spec tx c inp s dist r dv prod matched p m hwf hfail hprof hvend
        hmatch hne hpm hprod hsusp hpk htx
    exact ⟨s', h1, h3⟩
  · intro tx c inp s chem r prod matched p m hwf hfail hprof hmatch hne hpm hprod hsusp hpk htx
    obtain ⟨s', h1, -, h3, -, -⟩ :=
      ShipToCustomer_spec tx c inp s chem r prod matched p m hwf hfail hprof
        hmatch hne hpm hprod hsusp hpk htx
    exact ⟨s', h1, h3⟩

def scnMatched1 : List (LKey × LVal) := [(.flat "MF_B0_C1_P1", .asset scnUnit1)]

/-- C6 witness: shipping carton `B0_C1` (2 units) at per-unit price 7 with
packet capacity 200 bills 7 * 200 * 2 = 2800; shipping one packet at price
25 bills 25 * 200 = 5000. -/
theorem C6_witness :
    ((∃ s', ShipToDistributor scnTx2 callerMF ⟨"DS", "B0_C1", 25, 7⟩ scnAfterBatch = .ok s' ∧
      getState s' (.flat "tx2") = some (.receipt
        { id := "tx2", bundleId := "B0_C1", docType := RECEIPT, supplierId := "MF",
          customerId := "DS", productId := "P1", transactionDate := 25,
          billAmount := i16wrap (7 * 200 * 2) })) ∧
     i16wrap (7 * 200 * 2) = 2800) ∧
    ((∃ s', ShipToChemist scnTx2 callerMF ⟨"CH", "MF_B0_C1_P1", 25, 25⟩ scnAfterBatch = .ok s' ∧
      getState s' (.flat "tx2") = some (.receipt
        { id := "tx2", bundleId := "MF_B0_C1_P1", docType := RECEIPT, supplierId := "MF",
          customerId := "CH", productId := "P1", transactionDate := 25,
          billAmount := i16wrap (25 * 200) })) ∧
     i16wrap (25 * 200) = 5000) := by
  constructor
  · constructor
    · exact C6_receipt_bill_amounts.1 scnTx2 callerMF ⟨"DS", "B0_C1", 25, 7⟩ scnAfterBatch
        entMF1 "MANUFACTURER" (.entity entDS) prodP1 scnMatched "P1" "MF"
        (by decide) rfl rfl rfl rfl (by decide) rfl rfl rfl rfl
    · decide
  · constructor
    · exact C6_receipt_bill_amounts.2.1 scnTx2 callerMF ⟨"CH", "MF_B0_C1_P1", 25, 25⟩
        scnAfterBatch entMF1 "MANUFACTURER" (.entity entCH) prodP1 scnMatched1 "P1" "MF"
        (by decide) rfl rfl rfl rfl (by decide) rfl rfl rfl (by decide) rfl
    · decide

/-- C10: every bill is computed in Go `int16` arithmetic: the stored
receipt amount and the emitted event amount equal the mathematical product
of the factors reduced by `i16wrap` — two's-complement wrap-around modulo
2^16 into the `int16` range — so a product exceeding 32767 wraps (possibly
to a negative amount) instead of failing.  The first conjunct pins the
range of the reduction itself. -/
theorem C10_bill_int16_wraparound :
    (∀ x : Int, -32768 ≤ i16wrap x ∧ i16wrap x ≤ 32767) ∧
    (∀ (tx : Tx) (c : Caller) (inp : ShipToDistributorInput) (s : St)
       (man : Entity) (r : String) (dv : LVal) (prod : Product)
       (matched : List (LKey × LVal)) (p m : String),
      wfSt s → s.failing = [] →
      getProfileDetails c s = .ok (man, r) →
      IsActive s inp.customerId DISTRIBUTER = .ok (some dv) →
      (currentDocs s).filter (fun kv => predOwnerCarton man.id inp.cartonId kv.2) = matched →
      matched ≠ [] →
      lastPM matched "" "" = (p, m) →
      getState s (.comp (p ++ m) ITEM) = some (.product prod) →
      prod.suspended = false →
      getState s (.flat tx.txId) = none →
      ∃ s', ShipToDistributor tx c inp s = .ok s' ∧
        (decodeReceipt ((getState s' (.flat tx.txId)).getD (.receipt {}))).billAmount =
          i16wrap (inp.perUnitSellingPrice * prod.packetCapacity * matched.length) ∧
        s'.events = s.events ++ [("Distributor Shipment Alert",
          shipEvent man.id inp.customerId inp.transactionDate inp.perUnitSellingPrice m p
            (i16wrap matched.length)
            (i16wrap (inp.perUnitSellingPrice * prod.packetCapacity * matched.length)))]) ∧
    (∀ (tx : Tx) (c : Caller) (inp : ShipToChemistInput) (s : St)
       (dist : Entity) (r : String) (dv : LVal) (prod : Product)
       (matched : List (LKey × LVal)) (p m : String),
      wfSt s → s.failing = [] →
      getProfileDetails c s = .ok (dist, r) →
      IsActive s inp.customerId CHEMIST = .ok (some dv) →
      (currentDocs s).filter (fun kv => predOwnerId dist.id inp.packetId kv.2) = matched →
      matched ≠ [] →
      lastPM matched "" "" = (p, m) →
      getState s (.comp (p ++ m) ITEM) = some (.product prod) →
      prod.suspended = false →
      LKey.comp (p ++ m) ITEM ∉ matched.map Prod.fst →
      getState s (.flat tx.txId) = none →
      ∃ s', ShipToChemist tx c inp s = .ok s' ∧
        (decodeReceipt ((getState s' (.flat tx.txId)).getD (.receipt {}))).billAmount =
          i16wrap (inp.perUnitSellingPrice * prod.packetCapacity)) ∧
    (∀ (tx : Tx) (c : Caller) (inp : ShipToCustomerInput) (s : St)
       (chem : Entity) (r : String) (prod : Product)
       (matched : List (LKey × LVal)) (p m : String),
      wfSt s → s.failing = [] →
      getProfileDetails c s = .ok (chem, r) →
      (currentDocs s).filter (fun kv => predOwnerId chem.id inp.packetId kv.2) = matched →
      matched ≠ [] →
      lastPM matched "" "" = (p, m) →
      getState s (.comp (p ++ m) ITEM) = some (.product prod) →
      prod.suspended = false →
      LKey.comp (p ++ m) ITEM ∉ matched.map Prod.fst →
      getState s (.flat tx.txId) = none →
      ∃ s', ShipToCustomer tx c inp s = .ok s' ∧
        (decodeReceipt ((getState s' (.flat tx.txId)).getD (.receipt {}))).billAmount =
          i16wrap (prod.price * prod.packetCapacity)) := by
  refine ⟨fun x => ⟨i16wrap_lb x, i16wrap_ub x⟩, ?_, ?_, ?_⟩
  · intro tx c inp s man r dv prod matched p m hwf hfail hprof hvend hmatch hne hpm hprod hsusp htx
    obtain ⟨s', h1, -, h3, -, h5⟩ :=
      ShipToDistributor_spec tx c inp s man r dv prod matched p m hwf hfail hprof hvend
        hmatch hne hpm hprod hsusp htx
    refine ⟨s', h1, ?_, h5⟩
    rw [h3]
    rfl
  · intro tx c inp s dist r dv prod matched p m hwf hfail hprof hvend hmatch hne hpm hprod
      hsusp hpk htx
    obtain ⟨s', h1, -, h3, -, -⟩ :=
      ShipToChemist_spec tx c inp s dist r dv prod matched p m hwf hfail hprof hvend
        hmatch hne hpm hprod hsusp hpk htx
    refine ⟨s', h1, ?_⟩
    rw [h3]
    rfl
  · intro tx c inp s chem r prod matched p m hwf hfail hprof hmatch hne hpm hprod hsusp hpk htx
    obtain ⟨s', h1, -, h3, -, -⟩ :=
      ShipToCustomer_spec tx c inp s chem r prod matched p m hwf hfail hprof
        hmatch hne hpm hprod hsusp hpk htx
    refine ⟨s', h1, ?_⟩
    rw [h3]
    rfl

def scnUnitCH : Asset :=
  { scnUnit1 with owner := "CH", status := Statuses.ChemistInventoryReceived }

def scnMatchedCH : List (LKey × LVal) := [(.flat "MF_B0_C1_P1", .asset scnUnitCH)]

/-- C10 witness: the catalog sale of one packet at price 300 with packet
capacity 200 overflows `int16`: 300 * 200 = 60000 wraps to -5536, and that
negative amount is what the stored receipt carries. -/
theorem C10_witness :
    i16wrap (300 * 200) = -5536 ∧
    (∃ s', ShipToCustomer scnTx3 callerCH ⟨"bob", "MF_B0_C1_P1", 30⟩ scnAfterChem = .ok s' ∧
      (decodeReceipt ((getState s' (.flat "tx3")).getD (.receipt {}))).billAmount =
        i16wrap (300 * 200)) := by
  constructor
  · decide
  · exact C10_bill_int16_wraparound.2.2.2 scnTx3 callerCH ⟨"bob", "MF_B0_C1_P1", 30⟩
      scnAfterChem entCH "CHEMIST" prodP1 scnMatchedCH "P1" "MF"
      (by decide) rfl rfl rfl (by decide) rfl rfl rfl (by decide) rfl

/-! ### AddBatch -/

theorem bprefix_ne_empty (t : String) : ("B" ++ t) ≠ "" := by
  intro h
  have hd := congrArg String.data h
  rw [string_data_append] at hd
  simp at hd

theorem bprefix_ne_MANUFACTURER (t : String) : ("B" ++ t) ≠ MANUFACTURER := by
  intro h
  have hd := congrArg String.data h
  rw [string_data_append] at hd
  have h2 : ('B' :: t.data) = ('M' :: "ANUFACTURER".data) := hd
  injection h2 with h3 _
  exact absurd h3 (by decide)

/-- Full characterization of a successful `AddBatch` run: the batch record
is stored under the composite key of the manufacturer id and the new batch
id `B<batchCount>`, every generated unit is stored under its flat id, the
manufacturer record is rewritten with `batchCount + 1`, and no other key
changes. -/
theorem AddBatch_spec (tx : Tx) (c : Caller) (inp : Batch) (s : St)
    (man : Entity) (prod : Product)
    (hfail : s.failing = [])
    (hval : validateBatch inp = true)
    (hprof : getProfileDetails c s = .ok (man, MANUFACTURER))
    (hprod : getState s (.comp (inp.productId ++ man.id) ITEM) = some (.product prod))
    (hsusp : prod.suspended = false)
    (hdoc : man.docType = MANUFACTURER) :
    ∃ s', AddBatch tx c inp s = .ok s' ∧
      getState s' (.comp man.id ("B" ++ itoaInt man.batchCount)) =
        some (.batch { inp with id := "B" ++ itoaInt man.batchCount }) ∧
      getState s' (.comp man.id man.docType) =
        some (.entity { man with batchCount := man.batchCount + 1 }) ∧
      (∀ a ∈ genAssets man.id { inp with id := "B" ++ itoaInt man.batchCount } prod,
        getState s' (.flat a.id) = some (.asset a)) ∧
      (∀ k : LKey,
        (∀ a ∈ genAssets man.id { inp with id := "B" ++ itoaInt man.batchCount } prod,
          k ≠ .flat a.id) →
        k ≠ .comp man.id ("B" ++ itoaInt man.batchCount) →
        k ≠ .comp man.id man.docType →
        getState s' k = getState s k) := by
  have hIA : IsActive s (inp.productId ++ man.id) ITEM = .ok (some (.product prod)) := by
    rw [IsActive, hprod]
    simp [suspendedOf, hsusp]
  set bid := "B" ++ itoaInt man.batchCount with hbid
  set batch : Batch := { inp with id := bid } with hbatch
  set batchKey : LKey := .comp man.id bid with hbk
  have hins1 : insertData tx s (.batch batch) man.id batch.id =
      .ok (statePut tx s batchKey (.batch batch)) := by
    rw [insertData]
    simp only [hbatch]
    rw [if_pos (by exact bprefix_ne_empty _)]
    exact putState_ok tx _ (by rw [hfail]; exact List.not_mem_nil _)
  set s1 := statePut tx s batchKey (.batch batch) with hs1
  have hf1 : s1.failing = [] := by rw [hs1, statePut_failing, hfail]
  set assets := genAssets man.id batch prod with hassets
  obtain ⟨s2, hfold, hf2, he2, hframe2, hstore2⟩ :=
    foldlM_putState_ok tx assets s1 (fun a _ => by rw [hf1]; exact List.not_mem_nil _)
  set m2 : Entity := { man with batchCount := man.batchCount + 1 } with hm2
  set manKey : LKey := .comp man.id man.docType with hmk
  have hins3 : insertData tx s2 (.entity m2) man.id man.docType =
      .ok (statePut tx s2 manKey (.entity m2)) := by
    rw [insertData]
    rw [if_pos (by rw [hdoc]; intro h; exact absurd h (by decide))]
    exact putState_ok tx _ (by rw [hf2, hf1]; exact List.not_mem_nil _)
  set s3 := statePut tx s2 manKey (.entity m2) with hs3
  have hbk_ne_mk : batchKey ≠ manKey := by
    rw [hbk, hmk, hdoc]
    intro h
    injection h with _ h2
    exact bprefix_ne_MANUFACTURER _ h2
  refine ⟨s3, ?_, ?_, ?_, ?_, ?_⟩
  · simp only [AddBatch, hval, Bool.not_true, Bool.false_eq_true, if_false, hprof, hIA,
      decodeProduct]
    rw [if_neg (fun h => h rfl)]
    simp only [← hbid, ← hbatch, ← hm2, hins1, ← hassets, hfold, hins3]
  · rw [hs3, getState_statePut_ne _ _ _ hbk_ne_mk,
      hframe2 _ (fun a _ => by rw [hbk]; exact fun h => LKey.noConfusion h),
      hs1, getState_statePut_same]
  · rw [hs3, getState_statePut_same]
  · intro a ha
    have hne3 : (LKey.flat a.id) ≠ manKey := by rw [hmk]; exact fun h => LKey.noConfusion h
    rw [hs3, getState_statePut_ne _ _ _ hne3]
    exact hstore2 (genAssets_ids_nodup _ _ _) a ha
  · intro k hka hkb hkm
    rw [hs3, getState_statePut_ne _ _ _ (by rw [hmk]; exact hkm),
      hframe2 _ hka, hs1, getState_statePut_ne _ _ _ (by rw [hbk]; exact hkb)]

/-! ### C1 and C2: batch creation -/

/-- C1: a successful `AddBatch` with carton quantity `C` and carton
capacity `K` creates exactly `C * K` unit records — none when `C = 0` or
`K = 0`, the call still succeeding — each stored under its own id of the
form `<manufacturerId>_<batchId>_C<i>_P<j>` with `i` in `1..C` and `j` in
`1..K`, all ids distinct, each unit starting in `ReadyForDistribution` and
owned by the calling manufacturer.  The bounds on the two `int16` loop
limits exclude the value 32767, at which the Go loop counter wraps and the
call never returns. -/
theorem C1_addBatch_creates_units (tx : Tx) (c : Caller) (inp : Batch) (s : St)
    (man : Entity) (prod : Product) (batch : Batch) (assets : List Asset)
    (hfail : s.failing = [])
    (hval : validateBatch inp = true)
    (hprof : getProfileDetails c s = .ok (man, MANUFACTURER))
    (hprod : getState s (.comp (inp.productId ++ man.id) ITEM) = some (.product prod))
    (hsusp : prod.suspended = false)
    (hdoc : man.docType = MANUFACTURER)
    (_hqty : inp.cartonQnty ≤ 32766)
    (_hcap : prod.cartonCapacity ≤ 32766)
    (hbatch : batch = { inp with id := "B" ++ itoaInt man.batchCount })
    (hassets : assets = genAssets man.id batch prod) :
    ∃ s', AddBatch tx c inp s = .ok s' ∧
      assets.length = inp.cartonQnty.toNat * prod.cartonCapacity.toNat ∧
      (assets.map (·.id)).Nodup ∧
      (∀ a ∈ assets, a.owner = man.id ∧ a.status = Statuses.ReadyForDistribution ∧
        getState s' (.flat a.id) = some (.asset a) ∧
        ∃ i j, 1 ≤ i ∧ i ≤ inp.cartonQnty.toNat ∧ 1 ≤ j ∧ j ≤ prod.cartonCapacity.toNat ∧
          a.id = assetIdOf man.id batch.id i j) ∧
      (∀ i j, 1 ≤ i → i ≤ inp.cartonQnty.toNat → 1 ≤ j → j ≤ prod.cartonCapacity.toNat →
        ∃ a ∈ assets, a.id = assetIdOf man.id batch.id i j) ∧
      ((inp.cartonQnty = 0 ∨ prod.cartonCapacity = 0) → assets = []) := by
  obtain ⟨s', hok, hb, hm, hunits, hframe⟩ :=
    AddBatch_spec tx c inp s man prod hfail hval hprof hprod hsusp hdoc
  have hbq : batch.cartonQnty = inp.cartonQnty := by rw [hbatch]
  refine ⟨s', hok, ?_, ?_, ?_, ?_, ?_⟩
  · rw [hassets, genAssets_length, hbq]
  · rw [hassets]
    exact genAssets_ids_nodup _ _ _
  · intro a ha
    have hmem := ha
    rw [hassets, genAssets_mem] at hmem
    obtain ⟨i, j, hi, hj, rfl⟩ := hmem
    rw [idxList_mem] at hi hj
    rw [hbq] at hi
    refine ⟨rfl, rfl, ?_, i, j, hi.1, hi.2, hj.1, hj.2, rfl⟩
    apply hunits
    rw [← hbatch, ← hassets]
    exact ha
  · intro i j hi1 hi2 hj1 hj2
    let aCon : Asset :=
      { id := assetIdOf man.id batch.id i j, batchId := batch.id,
        cartonId := batch.id ++ "_" ++ "C" ++ itoa i, owner := man.id,
        status := Statuses.ReadyForDistribution, productId := prod.id,
        manufacturerId := man.id, manufacturingDate := batch.manufacturingDate,
        expiryDate := batch.expiryDate, docType := ASSET }
    refine ⟨aCon, ?_, rfl⟩
    rw [hassets, genAssets_mem]
    refine ⟨i, j, ?_, ?_, rfl⟩
    · rw [idxList_mem, hbq]; exact ⟨hi1, hi2⟩
    · rw [idxList_mem]; exact ⟨hj1, hj2⟩
  · intro hzero
    have : assets.length = 0 := by
      rw [hassets, genAssets_length, hbq]
      rcases hzero with h | h <;> simp [h]
    exact List.length_eq_zero.mp this

/-- C2: the new batch id is `B` followed by the manufacturer `batchCount`
read at the start of the call (pre-increment, so `B0, B1, B2, ...`), and
the manufacturer record persisted after the unit writes carries exactly
`batchCount + 1`. -/
theorem C2_addBatch_id_and_counter (tx : Tx) (c : Caller) (inp : Batch) (s : St)
    (man : Entity) (prod : Product)
    (hfail : s.failing = [])
    (hval : validateBatch inp = true)
    (hprof : getProfileDetails c s = .ok (man, MANUFACTURER))
    (hprod : getState s (.comp (inp.productId ++ man.id) ITEM) = some (.product prod))
    (hsusp : prod.suspended = false)
    (hdoc : man.docType = MANUFACTURER)
    (_hqty : inp.cartonQnty ≤ 32766)
    (_hcap : prod.cartonCapacity ≤ 32766) :
    ∃ s', AddBatch tx c inp s = .ok s' ∧
      getState s' (.comp man.id ("B" ++ itoaInt man.batchCount)) =
        some (.batch { inp with id := "B" ++ itoaInt man.batchCount }) ∧
      getState s' (.comp man.id man.docType) =
        some (.entity { man with batchCount := man.batchCount + 1 }) := by
  obtain ⟨s', hok, hb, hm, -, -⟩ :=
    AddBatch_spec tx c inp s man prod hfail hval hprof hprod hsusp hdoc
  exact ⟨s', hok, hb, hm⟩

/-- C1 witness: the scenario batch (`C = 1`, `K = 2`) yields exactly the
two units `MF_B0_C1_P1`, `MF_B0_C1_P2`. -/
theorem C1_witness :
    ∃ s', AddBatch scnTx1 callerMF scnBatch scnState = .ok s' ∧
      ([scnUnit1, scnUnit2].length = (1 : Int).toNat * (2 : Int).toNat) ∧
      ([scnUnit1, scnUnit2].map (·.id)).Nodup ∧
      (∀ a ∈ [scnUnit1, scnUnit2], a.owner = "MF" ∧
        a.status = Statuses.ReadyForDistribution ∧
        getState s' (.flat a.id) = some (.asset a) ∧
        ∃ i j, 1 ≤ i ∧ i ≤ (1 : Int).toNat ∧ 1 ≤ j ∧ j ≤ (2 : Int).toNat ∧
          a.id = assetIdOf "MF" "B0" i j) ∧
      (∀ i j, 1 ≤ i → i ≤ (1 : Int).toNat → 1 ≤ j → j ≤ (2 : Int).toNat →
        ∃ a ∈ [scnUnit1, scnUnit2], a.id = assetIdOf "MF" "B0" i j) ∧
      (((1 : Int) = 0 ∨ (2 : Int) = 0) → [scnUnit1, scnUnit2] = []) := by
  exact C1_addBatch_creates_units scnTx1 callerMF scnBatch scnState entMF prodP1
    { scnBatch with id := "B0" } [scnUnit1, scnUnit2]
    rfl rfl rfl rfl rfl rfl (by decide) (by decide) rfl rfl

/-- C2 witness: the scenario batch gets id `B0` and the persisted
manufacturer counter moves from 0 to 1. -/
theorem C2_witness :
    ∃ s', AddBatch scnTx1 callerMF scnBatch scnState = .ok s' ∧
      getState s' (.comp "MF" ("B" ++ itoaInt 0)) =
        some (.batch { scnBatch with id := "B" ++ itoaInt 0 }) ∧
      getState s' (.comp "MF" MANUFACTURER) =
        some (.entity { entMF with batchCount := 1 }) := by
  exact C2_addBatch_id_and_counter scnTx1 callerMF scnBatch scnState entMF prodP1
    rfl rfl rfl rfl rfl rfl (by decide) (by decide)

/-! ### C9: swallowed write failures -/

/-- C9: the three error-swallowing branches of the source.  (1) When the
batch-record write fails, `AddBatch` returns success immediately — with no
units created and no counter update (source line 1333 returns nil).  (2)
When every unit write succeeds but the manufacturer-record write fails,
`AddBatch` still returns success and the persisted `batchCount` is
unchanged (source line 1382).  (3) `createReceipt` never returns an error:
a failed receipt write is also swallowed (source line 1748). -/
theorem C9_write_failures_reported_as_success :
    (∀ (tx : Tx) (c : Caller) (inp : Batch) (s : St) (man : Entity) (prod : Product),
      validateBatch inp = true →
      getProfileDetails c s = .ok (man, MANUFACTURER) →
      getState s (.comp (inp.productId ++ man.id) ITEM) = some (.product prod) →
      prod.suspended = false →
      (LKey.comp man.id ("B" ++ itoaInt man.batchCount)) ∈ s.failing →
      AddBatch tx c inp s = .ok s) ∧
    (∀ (tx : Tx) (c : Caller) (inp : Batch) (s : St) (man : Entity) (prod : Product),
      validateBatch inp = true →
      getProfileDetails c s = .ok (man, MANUFACTURER) →
      getState s (.comp (inp.productId ++ man.id) ITEM) = some (.product prod) →
      prod.suspended = false →
      man.docType = MANUFACTURER →
      s.failing = [.comp man.id man.docType] →
      ∃ s', AddBatch tx c inp s = .ok s' ∧
        getState s' (.comp man.id man.docType) = getState s (.comp man.id man.docType)) ∧
    (∀ (tx : Tx) (bundleId supplierId customerId productId : String)
       (transactionDate billAmount : Int) (s : St),
      (∃ s', createReceipt tx bundleId supplierId customerId productId transactionDate
        billAmount s = .ok s') ∧
      ((LKey.flat tx.txId) ∈ s.failing →
        createReceipt tx bundleId supplierId customerId productId transactionDate
          billAmount s = .ok s)) := by
  refine ⟨?_, ?_, ?_⟩
  · intro tx c inp s man prod hval hprof hprod hsusp hmem
    have hIA : IsActive s (inp.productId ++ man.id) ITEM = .ok (some (.product prod)) := by
      rw [IsActive, hprod]
      simp [suspendedOf, hsusp]
    have hins1 : insertData tx s
        (.batch { inp with id := "B" ++ itoaInt man.batchCount }) man.id
        ("B" ++ itoaInt man.batchCount) =
        .error "Failed to insert details to CouchDB" := by
      rw [insertData]
      rw [if_pos (by exact bprefix_ne_empty _)]
      rw [putState, if_pos hmem]
    simp only [AddBatch, hval, Bool.not_true, Bool.false_eq_true, if_false, hprof, hIA,
      decodeProduct]
    rw [if_neg (fun h => h rfl)]
    simp only [hins1]
  · intro tx c inp s man prod hval hprof hprod hsusp hdoc hfailing
    have hIA : IsActive s (inp.productId ++ man.id) ITEM = .ok (some (.product prod)) := by
      rw [IsActive, hprod]
      simp [suspendedOf, hsusp]
    set bid := "B" ++ itoaInt man.batchCount with hbid
    set batch : Batch := { inp with id := bid } with hbatch
    set batchKey : LKey := .comp man.id bid with hbk
    have hbk_ne_mk : batchKey ≠ LKey.comp man.id man.docType := by
      rw [hbk, hdoc]
      intro h
      injection h with _ h2
      exact bprefix_ne_MANUFACTURER _ h2
    have hins1 : insertData tx s (.batch batch) man.id batch.id =
        .ok (statePut tx s batchKey (.batch batch)) := by
      rw [insertData]
      simp only [hbatch]
      rw [if_pos (by exact bprefix_ne_empty _)]
      refine putState_ok tx _ ?_
      rw [hfailing]
      simp only [List.mem_singleton]
      exact hbk_ne_mk
    set s1 := statePut tx s batchKey (.batch batch) with hs1
    set assets := genAssets man.id batch prod with hassets
    obtain ⟨s2, hfold, hf2, he2, hframe2, hstore2⟩ :=
      foldlM_putState_ok tx assets s1 (by
        intro a _
        rw [hs1, statePut_failing, hfailing]
        simp only [List.mem_singleton]
        exact fun h => LKey.noConfusion h)
    have hmem2 : (LKey.comp man.id man.docType) ∈ s2.failing := by
      rw [hf2, hs1, statePut_failing, hfailing]
      simp
    have hins3 : insertData tx s2
        (.entity { man with batchCount := man.batchCount + 1 }) man.id man.docType =
        .error "Failed to insert details to CouchDB" := by
      rw [insertData]
      rw [if_pos (by rw [hdoc]; intro h; exact absurd h (by decide))]
      rw [putState, if_pos hmem2]
    refine ⟨s2, ?_, ?_⟩
    · simp only [AddBatch, hval, Bool.not_true, Bool.false_eq_true, if_false, hprof, hIA,
        decodeProduct]
      rw [if_neg (fun h => h rfl)]
      simp only [← hbid, ← hbatch, hins1, ← hassets, hfold, hins3]
    · rw [hframe2 _ (fun a _ => fun h => LKey.noConfusion h), hs1,
        getState_statePut_ne _ _ _ (Ne.symm hbk_ne_mk)]
  · intro tx bundleId supplierId customerId productId transactionDate billAmount s
    constructor
    · rw [createReceipt, insertData]
      rw [if_neg (by simp)]
      rw [putState]
      split
      · exact ⟨s, rfl⟩
      · exact ⟨_, rfl⟩
    · intro hmem
      rw [createReceipt, insertData]
      rw [if_neg (by simp)]
      rw [putState, if_pos hmem]

/-- C9 witness: concrete failing writes.  With the batch key failing,
`AddBatch` returns success on the unchanged ledger; with only the
manufacturer key failing, it returns success and the stored manufacturer
record still has `batchCount = 0`; with the transaction id failing,
`createReceipt` still reports success. -/
theorem C9_witness :
    (AddBatch scnTx1 callerMF scnBatch
      { scnState with failing := [.comp "MF" "B0"] } =
      .ok { scnState with failing := [.comp "MF" "B0"] }) ∧
    (∃ s', AddBatch scnTx1 callerMF scnBatch
        { scnState with failing := [.comp "MF" MANUFACTURER] } = .ok s' ∧
      getState s' (.comp "MF" MANUFACTURER) =
        getState { scnState with failing := [.comp "MF" MANUFACTURER] }
          (.comp "MF" MANUFACTURER)) ∧
    (createReceipt scnTx1 "B0_C1" "MF" "DS" "P1" 25 2800
      { scnState with failing := [.flat "tx1"] } =
      .ok { scnState with failing := [.flat "tx1"] }) := by
  refine ⟨?_, ?_, ?_⟩
  · exact C9_write_failures_reported_as_success.1 scnTx1 callerMF scnBatch
      { scnState with failing := [.comp "MF" "B0"] } entMF prodP1 rfl rfl rfl rfl (by decide)
  · exact C9_write_failures_reported_as_success.2.1 scnTx1 callerMF scnBatch
      { scnState with failing := [.comp "MF" MANUFACTURER] } entMF prodP1 rfl rfl rfl rfl rfl rfl
  · exact (C9_write_failures_reported_as_success.2.2 scnTx1 "B0_C1" "MF" "DS" "P1" 25 2800
      { scnState with failing := [.flat "tx1"] }).2 (by decide)

/-! ### C8: receipt access control -/

/-- C8: for an active caller, `ViewReceipt` returns the stored receipt
document exactly when the caller entity id equals the receipt supplier id
or customer id; any other active caller gets the not-authorized error, and
a missing receipt id yields the does-not-exist error. -/
theorem C8_viewReceipt_two_party_access (c : Caller) (s : St) (receiptId : String)
    (ent : Entity) (r : String) (v : LVal)
    (hprof : getProfileDetails c s = .ok (ent, r)) :
    (getState s (.flat receiptId) = none →
      ViewReceipt c receiptId s = .error ("Receipt does not exist for ID: " ++ receiptId)) ∧
    (getState s (.flat receiptId) = some v →
      (ViewReceipt c receiptId s = .ok v ↔
        ((decodeReceipt v).supplierId = ent.id ∨ (decodeReceipt v).customerId = ent.id)) ∧
      (¬((decodeReceipt v).supplierId = ent.id ∨ (decodeReceipt v).customerId = ent.id) →
        ViewReceipt c receiptId s = .error "You are not authorized to view the receipt")) := by
  constructor
  · intro hnone
    simp [ViewReceipt, hprof, hnone]
  · intro hsome
    by_cases hauth : (decodeReceipt v).supplierId = ent.id ∨ (decodeReceipt v).customerId = ent.id
    · constructor
      · constructor
        · intro _
          exact hauth
        · intro _
          simp only [ViewReceipt, hprof, hsome]
          rw [if_neg]
          simp only [Bool.and_eq_true, bne_iff_ne, ne_eq, not_and_or, not_not]
          exact hauth
      · intro h
        exact absurd hauth h
    · push_neg at hauth
      have hcond : ((decodeReceipt v).supplierId != ent.id &&
          (decodeReceipt v).customerId != ent.id) = true := by
        simp only [Bool.and_eq_true, bne_iff_ne, ne_eq]
        exact hauth
      constructor
      · constructor
        · intro hok
          simp only [ViewReceipt, hprof, hsome] at hok
          rw [if_pos hcond] at hok
          exact absurd hok (by simp)
        · intro h
          exact absurd h (by
            simp only [not_or]
            exact hauth)
      · intro _
        simp only [ViewReceipt, hprof, hsome]
        rw [if_pos hcond]

def scnReceipt : Receipt :=
  { id := "r1", bundleId := "B0_C1", docType := RECEIPT, supplierId := "MF",
    customerId := "DS", productId := "P1", transactionDate := 25, billAmount := 2800 }

/-- The registered ledger extended with one stored receipt `r1` naming
supplier `MF` and customer `DS`. -/
def scnWithReceipt : St :=
  { scnState with ledger := scnState.ledger ++ [(.flat "r1", [⟨false, .receipt scnReceipt, "t1", 1⟩])] }

/-- C8 witness: the supplier `MF` can read receipt `r1`, the chemist `CH`
cannot, and a missing id fails with the not-found error. -/
theorem C8_witness :
    ViewReceipt callerMF "r1" scnWithReceipt = .ok (.receipt scnReceipt) ∧
    ViewReceipt callerCH "r1" scnWithReceipt =
      .error "You are not authorized to view the receipt" ∧
    ViewReceipt callerMF "nope" scnWithReceipt =
      .error "Receipt does not exist for ID: nope" := by
  refine ⟨?_, ?_, ?_⟩
  · exact ((C8_viewReceipt_two_party_access callerMF scnWithReceipt "r1" entMF
      "MANUFACTURER" (.receipt scnReceipt) rfl).2 rfl).1.mpr (by left; rfl)
  · exact ((C8_viewReceipt_two_party_access callerCH scnWithReceipt "r1" entCH
      "CHEMIST" (.receipt scnReceipt) rfl).2 rfl).2 (by decide)
  · exact (C8_viewReceipt_two_party_access callerMF scnWithReceipt "nope" entMF
      "MANUFACTURER" (.receipt scnReceipt) rfl).1 rfl
